import Mathlib

/-!
# Verification of the kursach_bd Record Store (src/app.py)

Shallow embedding of the six SQLAlchemy models and the CRUD route handlers
of `src/app.py`. Tables are lists of rows; the per-table auto-increment
primary key is an explicit counter. Handlers become functions
`DB → ... → Except DbError ...`.

Embedding conventions, matched against the source:
* `Model.query.get_or_404(id)` becomes a `find?` on the table returning
  `DbError.notFound` (the 404 abort) when no row has the id.
* `datetime.strptime(s, '%Y-%m-%d')` becomes `parseDate`; a Python
  `ValueError` (unparsable date) becomes `DbError.valueError` — an
  unhandled exception in the handler, which commits nothing.
* A relationship declared `cascade="all, delete"` deletes the child rows
  when the parent is deleted (`Equipment.maintenance_plans`,
  `TOROEvent.maintenance_plans`, `MaintenancePlan.needs`,
  `MaintenancePlan.completed_works`).
* The `MaterialAsset.needs` backref (line 55) has the default relationship
  cascade, i.e. no delete: on `session.delete(asset)` SQLAlchemy
  de-associates the loaded `Need` children by setting their
  `materialassetid` column to NULL before deleting the parent, so the
  column-level `ondelete='CASCADE'` never sees a referencing row
  (`passive_deletes` is not set).
* Foreign-key columns are nullable (`Option Nat`), as in the schema.
-/

set_option maxRecDepth 4000

namespace KursachBD

/-- Errors surfaced by the record store, per the spec's taxonomy plus the
raw unhandled Python `ValueError` raised by `strptime`. `notFound` is the
404 abort of `get_or_404`; `referenceError` is a foreign-key constraint
violation reported by the storage backend at commit. -/
inductive DbError where
  | notFound
  | referenceError
  | valueError
deriving DecidableEq, Repr

/-- A calendar date, the value stored in a `db.Date` column. -/
structure Date where
  year : Nat
  month : Nat
  day : Nat
deriving DecidableEq, Repr

/-- Gregorian leap year rule, as used by Python's `datetime`. -/
def isLeapYear (y : Nat) : Bool :=
  (y % 4 == 0 && y % 100 != 0) || y % 400 == 0

/-- Days in a month of the proleptic Gregorian calendar. -/
def daysInMonth (y m : Nat) : Nat :=
  if m == 2 then (if isLeapYear y then 29 else 28)
  else if m == 4 || m == 6 || m == 9 || m == 11 then 30
  else 31

/-- Embedding of `datetime.strptime(s, '%Y-%m-%d').date()`: three
dash-separated decimal fields, year within Python's `datetime` range
1..9999, month 1..12, day valid for the month. `none` models the
`ValueError` raised on any other input. -/
def parseDate (s : String) : Option Date :=
  match s.splitOn "-" with
  | [ys, ms, ds] =>
    match ys.toNat?, ms.toNat?, ds.toNat? with
    | some y, some m, some d =>
      if 1 ≤ y && y ≤ 9999 && 1 ≤ m && m ≤ 12 && 1 ≤ d && d ≤ daysInMonth y m
      then some ⟨y, m, d⟩ else none
    | _, _, _ => none
  | _ => none

/-- The equipment handlers' date idiom (lines 81-82, 96-97):
`strptime(form_value).date() if form_value else None`. An empty string
becomes NULL; a non-empty unparsable string is the `ValueError` case
(`none` here). -/
def parseFormDate (s : String) : Option (Option Date) :=
  if s == "" then some none else (parseDate s).map some

/-- Row of table `equipment` (src/app.py lines 14-22). -/
structure Equipment where
  id : Nat
  type : String
  name : String
  status : String
  lastmaintenancedate : Option Date
deriving DecidableEq, Repr

/-- Row of table `toro_event` (lines 24-30). -/
structure TOROEvent where
  id : Nat
  name : String
  description : String
deriving DecidableEq, Repr

/-- Row of table `maintenance_plan` (lines 32-40); both foreign keys are
nullable integer columns. -/
structure MaintenancePlan where
  id : Nat
  equipmentid : Option Nat
  eventid : Option Nat
  periodicity : String
deriving DecidableEq, Repr

/-- Row of table `material_assets` (lines 42-46). The `Numeric(10,2)`
price is carried as the raw form string the handler stores. -/
structure MaterialAsset where
  id : Nat
  materialname : String
  price : String
deriving DecidableEq, Repr

/-- Row of table `needs` (lines 48-55). `quantity` is an integer column;
the handler stores the form value into it with no validation, so any
integer the backend coerces the form string to — negative included —
is persisted as-is. -/
structure Need where
  id : Nat
  maintenanceplanid : Option Nat
  materialassetid : Option Nat
  quantity : Int
deriving DecidableEq, Repr

/-- Row of table `completed_work` (lines 57-61). -/
structure CompletedWork where
  id : Nat
  maintenanceplanid : Option Nat
  completion_date : Date
deriving DecidableEq, Repr

/-- The persisted state: the six tables plus each table's auto-increment
counter (next primary key to assign). -/
structure DB where
  equipment : List Equipment
  events : List TOROEvent
  plans : List MaintenancePlan
  assets : List MaterialAsset
  needs : List Need
  completed : List CompletedWork
  nextEquipmentId : Nat
  nextEventId : Nat
  nextPlanId : Nat
  nextAssetId : Nat
  nextNeedId : Nat
  nextCompletedId : Nat
deriving DecidableEq, Repr

/-- Total number of rows across the six tables. -/
def totalRows (db : DB) : Nat :=
  db.equipment.length + db.events.length + db.plans.length +
  db.assets.length + db.needs.length + db.completed.length

/-! ## Form records

One record per create/edit form, holding exactly the `request.form`
fields the handler reads. Date fields are the raw strings the browser
posts; numeric fields are carried as the integers the backend's column
affinity coerces the posted strings to. -/

/-- Fields of `equipment_form.html` read by `create_equipment` /
`edit_equipment`. -/
structure EquipmentForm where
  type : String
  name : String
  status : String
  lastmaintenancedate : String
deriving DecidableEq, Repr

/-- Fields read by `create_event` / `edit_event`. -/
structure EventForm where
  name : String
  description : String
deriving DecidableEq, Repr

/-- Fields read by `create_plan` / `edit_plan`. -/
structure PlanForm where
  equipmentid : Nat
  eventid : Nat
  periodicity : String
deriving DecidableEq, Repr

/-- Fields read by `create_asset` / `edit_asset`. -/
structure AssetForm where
  materialname : String
  price : String
deriving DecidableEq, Repr

/-- Fields read by `create_need` / `edit_need`. -/
structure NeedForm where
  maintenanceplanid : Nat
  materialassetid : Nat
  quantity : Int
deriving DecidableEq, Repr

/-- Fields read by `create_completed` / `edit_completed`. -/
structure CompletedForm where
  maintenanceplanid : Nat
  completion_date : String
deriving DecidableEq, Repr

/-! ## Lookup (`query.get_or_404` / `query.all`) -/

/-- `Equipment.query.get(id)`: the row with primary key `id`, if any. -/
def getEquipment (db : DB) (i : Nat) : Option Equipment :=
  db.equipment.find? (fun e => e.id == i)

/-- `TOROEvent.query.get(id)`. -/
def getEvent (db : DB) (i : Nat) : Option TOROEvent :=
  db.events.find? (fun e => e.id == i)

/-- `MaintenancePlan.query.get(id)`. -/
def getPlan (db : DB) (i : Nat) : Option MaintenancePlan :=
  db.plans.find? (fun p => p.id == i)

/-- `MaterialAsset.query.get(id)`. -/
def getAsset (db : DB) (i : Nat) : Option MaterialAsset :=
  db.assets.find? (fun a => a.id == i)

/-- `Need.query.get(id)`. -/
def getNeed (db : DB) (i : Nat) : Option Need :=
  db.needs.find? (fun n => n.id == i)

/-- `CompletedWork.query.get(id)`. -/
def getCompleted (db : DB) (i : Nat) : Option CompletedWork :=
  db.completed.find? (fun c => c.id == i)

/-- The store's `getById` for Equipment: `get_or_404`, failing with
`notFound` (the 404 abort) when the row is absent. -/
def getEquipmentById (db : DB) (i : Nat) : Except DbError Equipment :=
  match getEquipment db i with
  | none => .error .notFound
  | some e => .ok e

/-- `getById` for Event. -/
def getEventById (db : DB) (i : Nat) : Except DbError TOROEvent :=
  match getEvent db i with
  | none => .error .notFound
  | some e => .ok e

/-- `getById` for MaintenancePlan. -/
def getPlanById (db : DB) (i : Nat) : Except DbError MaintenancePlan :=
  match getPlan db i with
  | none => .error .notFound
  | some p => .ok p

/-- `getById` for MaterialAsset. -/
def getAssetById (db : DB) (i : Nat) : Except DbError MaterialAsset :=
  match getAsset db i with
  | none => .error .notFound
  | some a => .ok a

/-- `getById` for Need. -/
def getNeedById (db : DB) (i : Nat) : Except DbError Need :=
  match getNeed db i with
  | none => .error .notFound
  | some n => .ok n

/-- `getById` for CompletedWork. -/
def getCompletedById (db : DB) (i : Nat) : Except DbError CompletedWork :=
  match getCompleted db i with
  | none => .error .notFound
  | some c => .ok c

/-- `list_equipment` (line 71): `Equipment.query.all()`. Modelled from the
spec: the result order of a `query.all()` with no `ORDER BY` is decided by
the storage engine configured in `config.py`, which is not under src/; the
spec fixes it as the identifier order, realized here because tables are
kept in insertion order and identifiers are assigned by a monotonically
increasing counter that is never reused (spec section 3). -/
def listEquipment (db : DB) : List Equipment := db.equipment

/-- `list_events` (line 113): `TOROEvent.query.all()`. Same ordering model
as `listEquipment`. -/
def listEvents (db : DB) : List TOROEvent := db.events

/-- `list_plans` (line 149): `MaintenancePlan.query.all()`. Same ordering
model as `listEquipment`. -/
def listPlans (db : DB) : List MaintenancePlan := db.plans

/-- `list_assets` (line 191): `MaterialAsset.query.all()`. Same ordering
model as `listEquipment`. -/
def listAssets (db : DB) : List MaterialAsset := db.assets

/-- `list_needs` (line 227): `Need.query.all()`. Same ordering model as
`listEquipment`. -/
def listNeeds (db : DB) : List Need := db.needs

/-- `list_completed` (line 269): `CompletedWork.query.all()`. Same
ordering model as `listEquipment`. -/
def listCompleted (db : DB) : List CompletedWork := db.completed

/-! ## Foreign-key enforcement at commit -/

/-- Modelled from the spec: the storage backend (configured in
`config.py`, not under src/) "supports foreign-key constraints" (spec
section 6), so a commit that inserts or updates a row whose non-NULL
foreign key resolves to no row of the referenced table fails; the spec
maps that failure to `ReferenceError`. This checks a plan's
`equipmentid`/`eventid` columns. -/
def planFKsOk (db : DB) (p : MaintenancePlan) : Bool :=
  (match p.equipmentid with
   | none => true
   | some i => (db.equipment.map (fun e => e.id)).contains i) &&
  (match p.eventid with
   | none => true
   | some i => (db.events.map (fun e => e.id)).contains i)

/-- Modelled from the spec: commit-time foreign-key check for a need's
`maintenanceplanid`/`materialassetid` columns (see `planFKsOk`). -/
def needFKsOk (db : DB) (n : Need) : Bool :=
  (match n.maintenanceplanid with
   | none => true
   | some i => (db.plans.map (fun p => p.id)).contains i) &&
  (match n.materialassetid with
   | none => true
   | some i => (db.assets.map (fun a => a.id)).contains i)

/-- Modelled from the spec: commit-time foreign-key check for a completed
work's `maintenanceplanid` column (see `planFKsOk`). -/
def completedFKOk (db : DB) (c : CompletedWork) : Bool :=
  match c.maintenanceplanid with
  | none => true
  | some i => (db.plans.map (fun p => p.id)).contains i

/-! ## Create handlers -/

/-- `create_equipment` (lines 74-87): builds an `Equipment` from the form
— `lastmaintenancedate` is `strptime`-parsed when the string is non-empty
and NULL otherwise — adds it and commits. An unparsable non-empty date
string raises `ValueError` before anything is added. Returns the updated
store and the assigned id. -/
def createEquipment (db : DB) (f : EquipmentForm) : Except DbError (DB × Nat) :=
  match parseFormDate f.lastmaintenancedate with
  | none => .error .valueError
  | some dt =>
    let i := db.nextEquipmentId
    .ok ({ db with
            equipment := db.equipment ++ [⟨i, f.type, f.name, f.status, dt⟩],
            nextEquipmentId := i + 1 }, i)

/-- `create_event` (lines 116-126): builds a `TOROEvent` from the form,
adds it and commits. -/
def createEvent (db : DB) (f : EventForm) : Except DbError (DB × Nat) :=
  let i := db.nextEventId
  .ok ({ db with
          events := db.events ++ [⟨i, f.name, f.description⟩],
          nextEventId := i + 1 }, i)

/-- `create_plan` (lines 152-165): builds a `MaintenancePlan` from the
form (the handler itself checks nothing) and commits; the commit enforces
the foreign-key constraints (`planFKsOk`). -/
def createPlan (db : DB) (f : PlanForm) : Except DbError (DB × Nat) :=
  let i := db.nextPlanId
  let p : MaintenancePlan := ⟨i, some f.equipmentid, some f.eventid, f.periodicity⟩
  if planFKsOk db p then
    .ok ({ db with plans := db.plans ++ [p], nextPlanId := i + 1 }, i)
  else .error .referenceError

/-- `create_asset` (lines 194-204): builds a `MaterialAsset` from the
form, adds it and commits. -/
def createAsset (db : DB) (f : AssetForm) : Except DbError (DB × Nat) :=
  let i := db.nextAssetId
  .ok ({ db with
          assets := db.assets ++ [⟨i, f.materialname, f.price⟩],
          nextAssetId := i + 1 }, i)

/-- `create_need` (lines 230-243): builds a `Need` from the form — the
quantity is stored exactly as posted, with no validation — and commits;
the commit enforces the foreign-key constraints (`needFKsOk`). -/
def createNeed (db : DB) (f : NeedForm) : Except DbError (DB × Nat) :=
  let i := db.nextNeedId
  let n : Need := ⟨i, some f.maintenanceplanid, some f.materialassetid, f.quantity⟩
  if needFKsOk db n then
    .ok ({ db with needs := db.needs ++ [n], nextNeedId := i + 1 }, i)
  else .error .referenceError

/-- `create_completed` (lines 272-283): `strptime`-parses the completion
date (no empty-string guard here, unlike `create_equipment`), builds the
row and commits; the commit enforces the foreign-key constraint
(`completedFKOk`). -/
def createCompleted (db : DB) (f : CompletedForm) : Except DbError (DB × Nat) :=
  match parseDate f.completion_date with
  | none => .error .valueError
  | some d =>
    let i := db.nextCompletedId
    let c : CompletedWork := ⟨i, some f.maintenanceplanid, d⟩
    if completedFKOk db c then
      .ok ({ db with completed := db.completed ++ [c], nextCompletedId := i + 1 }, i)
    else .error .referenceError

/-! ## Edit handlers

Each handler fetches the row with `get_or_404` (failing with `notFound`),
overwrites the form-named fields on it, and commits; the commit enforces
the foreign-key constraints on the new column values, failing with
`referenceError` and persisting nothing. The primary key is never
touched, nor is any other row. -/

/-- `edit_equipment` (lines 89-100): overwrites `type`, `name`, `status`
and the reparsed `lastmaintenancedate` on the identified row. -/
def editEquipment (db : DB) (i : Nat) (f : EquipmentForm) : Except DbError DB :=
  match getEquipment db i with
  | none => .error .notFound
  | some _ =>
    match parseFormDate f.lastmaintenancedate with
    | none => .error .valueError
    | some dt =>
      .ok { db with equipment := db.equipment.map (fun e =>
              if e.id == i then ⟨e.id, f.type, f.name, f.status, dt⟩ else e) }

/-- `edit_event` (lines 128-136): overwrites `name` and `description`. -/
def editEvent (db : DB) (i : Nat) (f : EventForm) : Except DbError DB :=
  match getEvent db i with
  | none => .error .notFound
  | some _ =>
    .ok { db with events := db.events.map (fun e =>
            if e.id == i then ⟨e.id, f.name, f.description⟩ else e) }

/-- `edit_plan` (lines 167-178): overwrites `equipmentid`, `eventid` and
`periodicity`; the commit checks the new foreign keys (`planFKsOk`). -/
def editPlan (db : DB) (i : Nat) (f : PlanForm) : Except DbError DB :=
  match getPlan db i with
  | none => .error .notFound
  | some p =>
    let p' : MaintenancePlan := ⟨p.id, some f.equipmentid, some f.eventid, f.periodicity⟩
    if planFKsOk db p' then
      .ok { db with plans := db.plans.map (fun q =>
              if q.id == i then ⟨q.id, some f.equipmentid, some f.eventid, f.periodicity⟩ else q) }
    else .error .referenceError

/-- `edit_asset` (lines 206-214): overwrites `materialname` and `price`. -/
def editAsset (db : DB) (i : Nat) (f : AssetForm) : Except DbError DB :=
  match getAsset db i with
  | none => .error .notFound
  | some _ =>
    .ok { db with assets := db.assets.map (fun a =>
            if a.id == i then ⟨a.id, f.materialname, f.price⟩ else a) }

/-- `edit_need` (lines 245-256): overwrites both foreign keys and the
unvalidated `quantity`; the commit checks the new foreign keys
(`needFKsOk`). -/
def editNeed (db : DB) (i : Nat) (f : NeedForm) : Except DbError DB :=
  match getNeed db i with
  | none => .error .notFound
  | some n =>
    let n' : Need := ⟨n.id, some f.maintenanceplanid, some f.materialassetid, f.quantity⟩
    if needFKsOk db n' then
      .ok { db with needs := db.needs.map (fun m =>
              if m.id == i then ⟨m.id, some f.maintenanceplanid, some f.materialassetid, f.quantity⟩ else m) }
    else .error .referenceError

/-- `edit_completed` (lines 285-294): overwrites `maintenanceplanid` and
the reparsed `completion_date`; the commit checks the foreign key
(`completedFKOk`). An unparsable date raises `ValueError` first, as in
the handler. -/
def editCompleted (db : DB) (i : Nat) (f : CompletedForm) : Except DbError DB :=
  match getCompleted db i with
  | none => .error .notFound
  | some c =>
    match parseDate f.completion_date with
    | none => .error .valueError
    | some d =>
      let c' : CompletedWork := ⟨c.id, some f.maintenanceplanid, d⟩
      if completedFKOk db c' then
        .ok { db with completed := db.completed.map (fun w =>
                if w.id == i then ⟨w.id, some f.maintenanceplanid, d⟩ else w) }
      else .error .referenceError

/-! ## Delete handlers -/

/-- Whether a nullable foreign-key value hits one of the listed ids
(NULL hits nothing). -/
def refHits (ids : List Nat) : Option Nat → Bool
  | none => false
  | some pid => ids.contains pid

/-- Whether a need references one of the listed plan ids. -/
def needRefsAny (ids : List Nat) (n : Need) : Bool :=
  refHits ids n.maintenanceplanid

/-- Whether a completed work references one of the listed plan ids. -/
def completedRefsAny (ids : List Nat) (c : CompletedWork) : Bool :=
  refHits ids c.maintenanceplanid

/-- `delete_equipment` (lines 102-107): `get_or_404`, then
`session.delete(equipment)`. The `cascade="all, delete"` on
`Equipment.maintenance_plans` deletes every plan whose `equipmentid` is
this id, and the same cascade on `MaintenancePlan.needs` /
`MaintenancePlan.completed_works` deletes every need and completed work
referencing one of those plans; all in the one commit. -/
def deleteEquipment (db : DB) (i : Nat) : Except DbError DB :=
  match getEquipment db i with
  | none => .error .notFound
  | some _ =>
    let deadIds := (db.plans.filter (fun p => p.equipmentid == some i)).map (fun p => p.id)
    .ok { db with
      equipment := db.equipment.filter (fun e => !(e.id == i)),
      plans := db.plans.filter (fun p => !(p.equipmentid == some i)),
      needs := db.needs.filter (fun n => !(needRefsAny deadIds n)),
      completed := db.completed.filter (fun c => !(completedRefsAny deadIds c)) }

/-- `delete_event` (lines 138-143): same two-level cascade as
`deleteEquipment`, rooted at `TOROEvent.maintenance_plans` via the
`eventid` column. -/
def deleteEvent (db : DB) (i : Nat) : Except DbError DB :=
  match getEvent db i with
  | none => .error .notFound
  | some _ =>
    let deadIds := (db.plans.filter (fun p => p.eventid == some i)).map (fun p => p.id)
    .ok { db with
      events := db.events.filter (fun e => !(e.id == i)),
      plans := db.plans.filter (fun p => !(p.eventid == some i)),
      needs := db.needs.filter (fun n => !(needRefsAny deadIds n)),
      completed := db.completed.filter (fun c => !(completedRefsAny deadIds c)) }

/-- `delete_plan` (lines 180-185): deletes the plan; the
`cascade="all, delete"` on `MaintenancePlan.needs` and
`MaintenancePlan.completed_works` deletes every need and completed work
referencing it. Equipment, events and assets are untouched. -/
def deletePlan (db : DB) (i : Nat) : Except DbError DB :=
  match getPlan db i with
  | none => .error .notFound
  | some _ =>
    .ok { db with
      plans := db.plans.filter (fun p => !(p.id == i)),
      needs := db.needs.filter (fun n => !(n.maintenanceplanid == some i)),
      completed := db.completed.filter (fun c => !(c.maintenanceplanid == some i)) }

/-- `delete_asset` (lines 216-221): deletes the asset. The
`MaterialAsset.needs` backref (line 55) has no delete cascade, so
SQLAlchemy de-associates the referencing needs: their `materialassetid`
is set to NULL and the rows stay; the column's `ondelete='CASCADE'` then
finds no referencing row to cascade over. -/
def deleteAsset (db : DB) (i : Nat) : Except DbError DB :=
  match getAsset db i with
  | none => .error .notFound
  | some _ =>
    .ok { db with
      assets := db.assets.filter (fun a => !(a.id == i)),
      needs := db.needs.map (fun n =>
        if n.materialassetid == some i
        then ⟨n.id, n.maintenanceplanid, none, n.quantity⟩ else n) }

/-- `delete_need` (lines 258-263): deletes just the one row; no
relationship cascades from `Need`. -/
def deleteNeed (db : DB) (i : Nat) : Except DbError DB :=
  match getNeed db i with
  | none => .error .notFound
  | some _ =>
    .ok { db with needs := db.needs.filter (fun n => !(n.id == i)) }

/-- `delete_completed` (lines 296-301): deletes just the one row. -/
def deleteCompleted (db : DB) (i : Nat) : Except DbError DB :=
  match getCompleted db i with
  | none => .error .notFound
  | some _ =>
    .ok { db with completed := db.completed.filter (fun c => !(c.id == i)) }

/-! ## Store invariants -/

/-- Well-formedness of one table: primary keys strictly increase along
the stored order (so they are distinct and the listing is id-sorted) and
all stay below the auto-increment counter (so a fresh id is never a
reuse). Every reachable state of the store satisfies this per table. -/
def TableWF (ids : List Nat) (next : Nat) : Prop :=
  ids.Pairwise (· < ·) ∧ ∀ j ∈ ids, j < next

/-- Well-formedness of the whole store: `TableWF` for each of the six
tables against its counter. -/
def WF (db : DB) : Prop :=
  TableWF (db.equipment.map (fun e => e.id)) db.nextEquipmentId ∧
  TableWF (db.events.map (fun e => e.id)) db.nextEventId ∧
  TableWF (db.plans.map (fun p => p.id)) db.nextPlanId ∧
  TableWF (db.assets.map (fun a => a.id)) db.nextAssetId ∧
  TableWF (db.needs.map (fun n => n.id)) db.nextNeedId ∧
  TableWF (db.completed.map (fun c => c.id)) db.nextCompletedId

instance (ids : List Nat) (n : Nat) : Decidable (TableWF ids n) := by
  unfold TableWF
  infer_instance

instance (db : DB) : Decidable (WF db) := by
  unfold WF
  infer_instance

/-- Referential integrity: every non-NULL foreign-key column of every
row resolves to a row of the referenced table. -/
def RI (db : DB) : Prop :=
  (∀ p ∈ db.plans, (∀ j, p.equipmentid = some j → ∃ e ∈ db.equipment, e.id = j) ∧
                   (∀ j, p.eventid = some j → ∃ e ∈ db.events, e.id = j)) ∧
  (∀ n ∈ db.needs, (∀ j, n.maintenanceplanid = some j → ∃ p ∈ db.plans, p.id = j) ∧
                   (∀ j, n.materialassetid = some j → ∃ a ∈ db.assets, a.id = j)) ∧
  (∀ c ∈ db.completed, ∀ j, c.maintenanceplanid = some j → ∃ p ∈ db.plans, p.id = j)

instance (db : DB) : Decidable (RI db) := by
  unfold RI
  infer_instance

/-- A small populated store used to evaluate the operations on concrete
input: one row in each table, the plan referencing equipment 1 and event
1, the need and the completed work referencing plan 1, the need
referencing asset 1. -/
def sampleDB : DB :=
  { equipment := [⟨1, "Mower", "M1", "active", none⟩],
    events := [⟨1, "Sharpening", "blades"⟩],
    plans := [⟨1, some 1, some 1, "monthly"⟩],
    assets := [⟨1, "Oil", "10.00"⟩],
    needs := [⟨1, some 1, some 1, 2⟩],
    completed := [⟨1, some 1, ⟨2024, 1, 1⟩⟩],
    nextEquipmentId := 2, nextEventId := 2, nextPlanId := 2,
    nextAssetId := 2, nextNeedId := 2, nextCompletedId := 2 }

/-- A larger store: equipment 1 owns plans 1 and 2, each with two needs
and two completed works; equipment 2 owns plan 3 with one need; event 1
is referenced by all three plans. -/
def wideDB : DB :=
  { equipment := [⟨1, "Mower", "M1", "active", none⟩, ⟨2, "Pump", "P1", "idle", none⟩],
    events := [⟨1, "Sharpening", "blades"⟩],
    plans := [⟨1, some 1, some 1, "monthly"⟩, ⟨2, some 1, some 1, "weekly"⟩,
              ⟨3, some 2, some 1, "yearly"⟩],
    assets := [⟨1, "Oil", "10.00"⟩],
    needs := [⟨1, some 1, some 1, 2⟩, ⟨2, some 1, some 1, 3⟩,
              ⟨3, some 2, some 1, 1⟩, ⟨4, some 2, some 1, 5⟩,
              ⟨5, some 3, some 1, 7⟩],
    completed := [⟨1, some 1, ⟨2024, 1, 1⟩⟩, ⟨2, some 1, ⟨2024, 2, 1⟩⟩,
                  ⟨3, some 2, ⟨2024, 3, 1⟩⟩, ⟨4, some 2, ⟨2024, 4, 1⟩⟩],
    nextEquipmentId := 3, nextEventId := 2, nextPlanId := 4,
    nextAssetId := 2, nextNeedId := 6, nextCompletedId := 5 }

/-- The store reached from `sampleDB` by deleting equipment 1: the
cascade also removes plan 1 and its need and completed work. -/
def sampleAfterEqDelete : DB :=
  { sampleDB with equipment := [], plans := [], needs := [], completed := [] }

/-- The store reached from `sampleDB` by deleting plan 1: its need and
completed work go with it; the upstream tables stay. -/
def sampleAfterPlanDelete : DB :=
  { sampleDB with plans := [], needs := [], completed := [] }

/-- The store reached from `sampleDB` by editing plan 1's periodicity to
"daily" (foreign keys unchanged and still valid). -/
def sampleAfterPlanEdit : DB :=
  { sampleDB with plans := [⟨1, some 1, some 1, "daily"⟩] }

/-! ## List lemmas -/

theorem refHits_nil (k : Option Nat) : refHits [] k = false := by
  cases k <;> rfl

theorem refHits_cons (i : Nat) (t : List Nat) (k : Option Nat) :
    refHits (i :: t) k = ((k == some i) || refHits t k) := by
  cases k with
  | none => rfl
  | some p =>
    cases hpi : (p == i) <;>
      simp_all [refHits, List.contains_cons]

theorem length_filter_or_split {α : Type} (p q : α → Bool) (l : List α)
    (h : ∀ a ∈ l, ¬(p a = true ∧ q a = true)) :
    (l.filter (fun a => p a || q a)).length = (l.filter p).length + (l.filter q).length := by
  induction l with
  | nil => simp
  | cons a t ih =>
    have ht : ∀ x ∈ t, ¬(p x = true ∧ q x = true) :=
      fun x hx => h x (List.mem_cons_of_mem a hx)
    have ha := h a (List.mem_cons_self a t)
    cases hp : p a <;> cases hq : q a
    · simp [List.filter_cons, hp, hq, ih ht]
    · simp [List.filter_cons, hp, hq, ih ht]
      omega
    · simp [List.filter_cons, hp, hq, ih ht]
      omega
    · exact absurd ⟨hp, hq⟩ ha

theorem length_filter_refHits {α : Type} (f : α → Option Nat) (ids : List Nat) (l : List α)
    (hn : ids.Nodup) :
    (l.filter (fun a => refHits ids (f a))).length
      = (ids.map (fun pid => (l.filter (fun a => f a == some pid)).length)).sum := by
  induction ids with
  | nil => simp [refHits_nil]
  | cons i t ih =>
    have hmem : i ∉ t := (List.nodup_cons.mp hn).1
    have hcongr : ∀ a ∈ l, refHits (i :: t) (f a) = ((f a == some i) || refHits t (f a)) :=
      fun a _ => refHits_cons i t (f a)
    have hdisj : ∀ a ∈ l, ¬((f a == some i) = true ∧ refHits t (f a) = true) := by
      intro a _ ⟨h1, h2⟩
      have hfa : f a = some i := by
        cases hfa : f a with
        | none => rw [hfa] at h1; exact absurd h1 (by simp)
        | some p => rw [hfa] at h1; simp at h1; simp [h1]
      rw [hfa] at h2
      simp [refHits] at h2
      exact hmem (by simpa using h2)
    rw [List.filter_congr hcongr, length_filter_or_split _ _ _ hdisj,
        List.map_cons, List.sum_cons, ih (List.nodup_cons.mp hn).2]

theorem sum_map_const_of {α : Type} (g : α → Nat) (m : Nat) (l : List α)
    (h : ∀ a ∈ l, g a = m) :
    (l.map g).sum = l.length * m := by
  induction l with
  | nil => simp
  | cons a t ih =>
    rw [List.map_cons, List.sum_cons, h a (List.mem_cons_self a t),
        ih (fun x hx => h x (List.mem_cons_of_mem a hx)),
        List.length_cons, Nat.succ_mul]
    omega

theorem length_filter_not_split {α : Type} (p : α → Bool) (l : List α) :
    (l.filter p).length + (l.filter (fun a => !(p a))).length = l.length := by
  induction l with
  | nil => simp
  | cons a t ih =>
    cases hp : p a <;> simp [List.filter_cons, hp] <;> omega

theorem length_filter_key_unique {α : Type} (key : α → Nat) (l : List α) (i : Nat)
    (hn : (l.map key).Nodup) (a : α) (ha : a ∈ l) (hai : key a = i) :
    (l.filter (fun x => key x == i)).length = 1 := by
  induction l with
  | nil => cases ha
  | cons b t ih =>
    rw [List.map_cons, List.nodup_cons] at hn
    rcases List.mem_cons.mp ha with rfl | hat
    · have htail : t.filter (fun x => key x == i) = [] := by
        rw [List.filter_eq_nil_iff]
        intro x hx hxe
        simp at hxe
        have hmm : (i : Nat) ∈ List.map key t := by
          rw [← hxe]; exact List.mem_map_of_mem key hx
        rw [← hai] at hmm
        exact hn.1 hmm
      simp [List.filter_cons, hai, htail]
    · have hbi : (key b == i) = false := by
        by_cases hb : key b = i
        · exfalso
          have hmm : (i : Nat) ∈ List.map key t := by
            rw [← hai]; exact List.mem_map_of_mem key hat
          rw [← hb] at hmm
          exact hn.1 hmm
        · simp [hb]
      simp [List.filter_cons, hbi, ih hn.2 hat]

theorem find?_append_fresh {α : Type} (p : α → Bool) (l : List α) (x : α)
    (h : ∀ a ∈ l, p a = false) :
    (l ++ [x]).find? p = if p x then some x else none := by
  induction l with
  | nil =>
    cases hx : p x <;> simp [List.find?, hx]
  | cons a t ih =>
    have ha := h a (List.mem_cons_self a t)
    simp [List.find?, ha, ih (fun y hy => h y (List.mem_cons_of_mem a hy))]

theorem find?_map_keyed_ne {α : Type} (key : α → Nat) (upd : α → α)
    (hk : ∀ a, key (upd a) = key a) (l : List α) (i j : Nat) (hij : ¬ j = i) :
    (l.map (fun a => if key a == i then upd a else a)).find? (fun a => key a == j)
      = l.find? (fun a => key a == j) := by
  induction l with
  | nil => rfl
  | cons a t ih =>
    by_cases hai : key a = i
    · have h1 : (key (if key a == i then upd a else a) == j) = false := by
        simp [hai, hk, Ne.symm hij]
      have h2 : (key a == j) = false := by
        simp [hai, Ne.symm hij]
      simp only [List.map_cons, List.find?]
      rw [h1, h2]
      exact ih
    · have heq : (if key a == i then upd a else a) = a := by simp [hai]
      simp only [List.map_cons, List.find?, heq]
      cases haj : (key a == j)
      · exact ih
      · rfl

theorem find?_map_keyed_eq {α : Type} (key : α → Nat) (upd : α → α)
    (hk : ∀ a, key (upd a) = key a) (l : List α) (i : Nat) :
    (l.map (fun a => if key a == i then upd a else a)).find? (fun a => key a == i)
      = (l.find? (fun a => key a == i)).map upd := by
  induction l with
  | nil => rfl
  | cons a t ih =>
    by_cases hai : key a = i
    · have h1 : (if key a == i then upd a else a) = upd a := by simp [hai]
      simp only [List.map_cons, List.find?, h1]
      rw [show (key (upd a) == i) = true by simp [hk, hai],
          show (key a == i) = true by simp [hai]]
      rfl
    · have h1 : (if key a == i then upd a else a) = a := by simp [hai]
      simp only [List.map_cons, List.find?, h1]
      rw [show (key a == i) = false by simp [hai]]
      exact ih

theorem find?_map_keyed_eq' {α : Type} (key : α → Nat) (upd : α → α)
    (hk : ∀ a, key (upd a) = key a) (l : List α) (i : Nat) :
    (l.map (fun a => if key a = i then upd a else a)).find? (fun a => key a == i)
      = (l.find? (fun a => key a == i)).map upd := by
  have hfun : (fun a => if key a = i then upd a else a)
      = (fun a => if key a == i then upd a else a) := by
    funext a
    by_cases h : key a = i <;> simp [h]
  rw [hfun]
  exact find?_map_keyed_eq key upd hk l i

theorem find?_map_keyed_ne' {α : Type} (key : α → Nat) (upd : α → α)
    (hk : ∀ a, key (upd a) = key a) (l : List α) (i j : Nat) (hij : ¬ j = i) :
    (l.map (fun a => if key a = i then upd a else a)).find? (fun a => key a == j)
      = l.find? (fun a => key a == j) := by
  have hfun : (fun a => if key a = i then upd a else a)
      = (fun a => if key a == i then upd a else a) := by
    funext a
    by_cases h : key a = i <;> simp [h]
  rw [hfun]
  exact find?_map_keyed_ne key upd hk l i j hij

theorem find?_filter_not {α : Type} (p : α → Bool) (l : List α) :
    (l.filter (fun a => !(p a))).find? p = none := by
  rw [List.find?_eq_none]
  intro x hx
  have := (List.mem_filter.mp hx).2
  simp at this
  simp [this]

theorem map_key_of_replace {α : Type} (key : α → Nat) (g : α → α)
    (hk : ∀ a, key (g a) = key a) (l : List α) :
    (l.map g).map key = l.map key := by
  induction l with
  | nil => rfl
  | cons a t ih => simp [hk, ih]

theorem tableWF_filter {α : Type} (key : α → Nat) (p : α → Bool) (l : List α) (n : Nat)
    (h : TableWF (l.map key) n) : TableWF ((l.filter p).map key) n := by
  obtain ⟨h1, h2⟩ := h
  have hsub : List.Sublist ((l.filter p).map key) (l.map key) :=
    (List.filter_sublist l).map key
  exact ⟨h1.sublist hsub, fun j hj => h2 j (hsub.subset hj)⟩

theorem tableWF_map {α : Type} (key : α → Nat) (g : α → α)
    (hk : ∀ a, key (g a) = key a) (l : List α) (n : Nat)
    (h : TableWF (l.map key) n) : TableWF ((l.map g).map key) n := by
  rw [map_key_of_replace key g hk l]
  exact h

theorem tableWF_append {α : Type} (key : α → Nat) (l : List α) (x : α) (n : Nat)
    (h : TableWF (l.map key) n) (hx : key x = n) :
    TableWF ((l ++ [x]).map key) (n + 1) := by
  obtain ⟨h1, h2⟩ := h
  rw [List.map_append]
  constructor
  · rw [List.pairwise_append]
    refine ⟨h1, by simp, ?_⟩
    intro a ha b hb
    simp at hb
    rw [hb, hx]
    exact h2 a ha
  · intro j hj
    rcases List.mem_append.mp hj with hj | hj
    · exact Nat.lt_succ_of_lt (h2 j hj)
    · simp at hj
      rw [hj, hx]
      exact Nat.lt_succ_self n

/-! ## Claims -/

/-- C4: for every entity type and identifier, `delete(id)` fails with
`NotFoundError` exactly when no row has the id (an error leaves the store
untouched — no successor state is produced), and after a successful
`delete(id)` a `getById(id)` fails with `NotFoundError`. -/
theorem delete_semantics (db : DB) (i : Nat) :
    (getEquipment db i = none ↔ deleteEquipment db i = .error .notFound) ∧
    (∀ db', deleteEquipment db i = .ok db' → getEquipmentById db' i = .error .notFound) ∧
    (getEvent db i = none ↔ deleteEvent db i = .error .notFound) ∧
    (∀ db', deleteEvent db i = .ok db' → getEventById db' i = .error .notFound) ∧
    (getPlan db i = none ↔ deletePlan db i = .error .notFound) ∧
    (∀ db', deletePlan db i = .ok db' → getPlanById db' i = .error .notFound) ∧
    (getAsset db i = none ↔ deleteAsset db i = .error .notFound) ∧
    (∀ db', deleteAsset db i = .ok db' → getAssetById db' i = .error .notFound) ∧
    (getNeed db i = none ↔ deleteNeed db i = .error .notFound) ∧
    (∀ db', deleteNeed db i = .ok db' → getNeedById db' i = .error .notFound) ∧
    (getCompleted db i = none ↔ deleteCompleted db i = .error .notFound) ∧
    (∀ db', deleteCompleted db i = .ok db' → getCompletedById db' i = .error .notFound) := by
  refine ⟨⟨?_, ?_⟩, ?_, ⟨?_, ?_⟩, ?_, ⟨?_, ?_⟩, ?_, ⟨?_, ?_⟩, ?_, ⟨?_, ?_⟩, ?_, ⟨?_, ?_⟩, ?_⟩
  · intro h; simp [deleteEquipment, h]
  · intro h
    cases hg : getEquipment db i with
    | none => rfl
    | some e => simp [deleteEquipment, hg] at h
  · intro db' h
    cases hg : getEquipment db i with
    | none => simp [deleteEquipment, hg] at h
    | some e =>
      simp [deleteEquipment, hg] at h
      subst h
      simp only [getEquipmentById, getEquipment, find?_filter_not]
  · intro h; simp [deleteEvent, h]
  · intro h
    cases hg : getEvent db i with
    | none => rfl
    | some e => simp [deleteEvent, hg] at h
  · intro db' h
    cases hg : getEvent db i with
    | none => simp [deleteEvent, hg] at h
    | some e =>
      simp [deleteEvent, hg] at h
      subst h
      simp only [getEventById, getEvent, find?_filter_not]
  · intro h; simp [deletePlan, h]
  · intro h
    cases hg : getPlan db i with
    | none => rfl
    | some e => simp [deletePlan, hg] at h
  · intro db' h
    cases hg : getPlan db i with
    | none => simp [deletePlan, hg] at h
    | some e =>
      simp [deletePlan, hg] at h
      subst h
      simp only [getPlanById, getPlan, find?_filter_not]
  · intro h; simp [deleteAsset, h]
  · intro h
    cases hg : getAsset db i with
    | none => rfl
    | some e => simp [deleteAsset, hg] at h
  · intro db' h
    cases hg : getAsset db i with
    | none => simp [deleteAsset, hg] at h
    | some e =>
      simp [deleteAsset, hg] at h
      subst h
      simp only [getAssetById, getAsset, find?_filter_not]
  · intro h; simp [deleteNeed, h]
  · intro h
    cases hg : getNeed db i with
    | none => rfl
    | some e => simp [deleteNeed, hg] at h
  · intro db' h
    cases hg : getNeed db i with
    | none => simp [deleteNeed, hg] at h
    | some e =>
      simp [deleteNeed, hg] at h
      subst h
      simp only [getNeedById, getNeed, find?_filter_not]
  · intro h; simp [deleteCompleted, h]
  · intro h
    cases hg : getCompleted db i with
    | none => rfl
    | some e => simp [deleteCompleted, hg] at h
  · intro db' h
    cases hg : getCompleted db i with
    | none => simp [deleteCompleted, hg] at h
    | some e =>
      simp [deleteCompleted, hg] at h
      subst h
      simp only [getCompletedById, getCompleted, find?_filter_not]

/-- C4 witness: deleting equipment 1 from the populated sample store
succeeds, and `getById 1` afterwards fails with `NotFoundError`. -/
theorem delete_semantics_witness :
    getEquipmentById sampleAfterEqDelete 1 = Except.error DbError.notFound :=
  (delete_semantics sampleDB 1).2.1 sampleAfterEqDelete (by rfl)

/-- C7: for every entity type, `update` on an identifier with no row
fails with `NotFoundError`; no successor store is produced, so nothing in
any table is added, removed, or modified. -/
theorem update_absent_notfound (db : DB) (i : Nat) (fe : EquipmentForm)
    (fv : EventForm) (fp : PlanForm) (fa : AssetForm) (fn : NeedForm)
    (fc : CompletedForm) :
    (getEquipment db i = none → editEquipment db i fe = .error .notFound) ∧
    (getEvent db i = none → editEvent db i fv = .error .notFound) ∧
    (getPlan db i = none → editPlan db i fp = .error .notFound) ∧
    (getAsset db i = none → editAsset db i fa = .error .notFound) ∧
    (getNeed db i = none → editNeed db i fn = .error .notFound) ∧
    (getCompleted db i = none → editCompleted db i fc = .error .notFound) := by
  refine ⟨?_, ?_, ?_, ?_, ?_, ?_⟩
  · intro h; simp [editEquipment, h]
  · intro h; simp [editEvent, h]
  · intro h; simp [editPlan, h]
  · intro h; simp [editAsset, h]
  · intro h; simp [editNeed, h]
  · intro h; simp [editCompleted, h]

/-- C7 witness: updating equipment 99, absent from the sample store,
fails with `NotFoundError`. -/
theorem update_absent_notfound_witness :
    editEquipment sampleDB 99 ⟨"t", "n", "s", ""⟩ = Except.error DbError.notFound :=
  (update_absent_notfound sampleDB 99 ⟨"t", "n", "s", ""⟩ ⟨"n", "d"⟩ ⟨1, 1, "p"⟩
    ⟨"m", "0.00"⟩ ⟨1, 1, 0⟩ ⟨1, "2024-01-01"⟩).1 rfl

/-- C10: cascades propagate only downward. Deleting a plan removes the
plan and exactly the needs and completed works referencing it, and leaves
equipment, events and assets untouched; deleting a need or a completed
work removes that single row and leaves every other table untouched. -/
theorem cascade_only_downward (db : DB) (i : Nat) :
    (∀ db', deletePlan db i = .ok db' →
      db'.equipment = db.equipment ∧ db'.events = db.events ∧
      db'.assets = db.assets ∧
      db'.plans = db.plans.filter (fun p => !(p.id == i)) ∧
      db'.needs = db.needs.filter (fun n => !(n.maintenanceplanid == some i)) ∧
      db'.completed = db.completed.filter (fun c => !(c.maintenanceplanid == some i))) ∧
    (∀ db', deleteNeed db i = .ok db' →
      db'.equipment = db.equipment ∧ db'.events = db.events ∧
      db'.assets = db.assets ∧ db'.plans = db.plans ∧
      db'.completed = db.completed ∧
      db'.needs = db.needs.filter (fun n => !(n.id == i))) ∧
    (∀ db', deleteCompleted db i = .ok db' →
      db'.equipment = db.equipment ∧ db'.events = db.events ∧
      db'.assets = db.assets ∧ db'.plans = db.plans ∧ db'.needs = db.needs ∧
      db'.completed = db.completed.filter (fun c => !(c.id == i))) := by
  refine ⟨?_, ?_, ?_⟩
  · intro db' h
    cases hg : getPlan db i with
    | none => simp [deletePlan, hg] at h
    | some p =>
      simp [deletePlan, hg] at h
      subst h
      exact ⟨rfl, rfl, rfl, rfl, rfl, rfl⟩
  · intro db' h
    cases hg : getNeed db i with
    | none => simp [deleteNeed, hg] at h
    | some n =>
      simp [deleteNeed, hg] at h
      subst h
      exact ⟨rfl, rfl, rfl, rfl, rfl, rfl⟩
  · intro db' h
    cases hg : getCompleted db i with
    | none => simp [deleteCompleted, hg] at h
    | some c =>
      simp [deleteCompleted, hg] at h
      subst h
      exact ⟨rfl, rfl, rfl, rfl, rfl, rfl⟩

/-- C10 witness: deleting plan 1 from the sample store keeps the
equipment, event and asset tables exactly as they were. -/
theorem cascade_only_downward_witness :
    sampleAfterPlanDelete.equipment = sampleDB.equipment ∧
    sampleAfterPlanDelete.events = sampleDB.events ∧
    sampleAfterPlanDelete.assets = sampleDB.assets ∧
    sampleAfterPlanDelete.plans = sampleDB.plans.filter (fun p => !(p.id == 1)) ∧
    sampleAfterPlanDelete.needs = sampleDB.needs.filter (fun n => !(n.maintenanceplanid == some 1)) ∧
    sampleAfterPlanDelete.completed = sampleDB.completed.filter (fun c => !(c.maintenanceplanid == some 1)) :=
  (cascade_only_downward sampleDB 1).1 sampleAfterPlanDelete (by rfl)

/-- C9: on a well-formed store, `getAll` for each entity type returns
exactly that type's rows (no filtering) in ascending identifier order;
in particular an empty table yields the empty sequence. -/
theorem get_all_sorted_unfiltered (db : DB) (hwf : WF db) :
    (listEquipment db = db.equipment ∧
      List.Sorted (· < ·) ((listEquipment db).map (fun e => e.id))) ∧
    (listEvents db = db.events ∧
      List.Sorted (· < ·) ((listEvents db).map (fun e => e.id))) ∧
    (listPlans db = db.plans ∧
      List.Sorted (· < ·) ((listPlans db).map (fun p => p.id))) ∧
    (listAssets db = db.assets ∧
      List.Sorted (· < ·) ((listAssets db).map (fun a => a.id))) ∧
    (listNeeds db = db.needs ∧
      List.Sorted (· < ·) ((listNeeds db).map (fun n => n.id))) ∧
    (listCompleted db = db.completed ∧
      List.Sorted (· < ·) ((listCompleted db).map (fun c => c.id))) :=
  ⟨⟨rfl, hwf.1.1⟩, ⟨rfl, hwf.2.1.1⟩, ⟨rfl, hwf.2.2.1.1⟩, ⟨rfl, hwf.2.2.2.1.1⟩,
   ⟨rfl, hwf.2.2.2.2.1.1⟩, ⟨rfl, hwf.2.2.2.2.2.1⟩⟩

/-- C9 witness: the sample store is well-formed and its plan listing is
the full plan table. -/
theorem get_all_sorted_unfiltered_witness :
    listPlans sampleDB = sampleDB.plans ∧
    List.Sorted (· < ·) ((listPlans sampleDB).map (fun p => p.id)) :=
  (get_all_sorted_unfiltered sampleDB (by decide)).2.2.1

/-- C3 (the code at the failing input): deleting material asset 1 from
the sample store — where need 1 references it — removes the asset row
but keeps the need, merely clearing its `materialassetid` to NULL, so
exactly one row disappears and the need row claimed to be cascade-deleted
survives. -/
theorem delete_asset_keeps_referencing_need :
    deleteAsset sampleDB 1 =
      Except.ok { sampleDB with assets := [], needs := [⟨1, some 1, none, 2⟩] } ∧
    totalRows { sampleDB with assets := [], needs := [⟨1, some 1, none, 2⟩] }
      = totalRows sampleDB - 1 ∧
    getNeed { sampleDB with assets := [], needs := [⟨1, some 1, none, 2⟩] } 1
      = some ⟨1, some 1, none, 2⟩ :=
  ⟨rfl, rfl, rfl⟩

/-- C5 (the code at the failing input): creating a need with quantity −5
— malformed per the spec, which requires a non-negative integer —
succeeds and persists the row with the negative quantity; the handler
validates nothing. -/
theorem create_need_persists_negative_quantity :
    createNeed sampleDB ⟨1, 1, -5⟩ =
      Except.ok ({ sampleDB with
                    needs := sampleDB.needs ++ [⟨2, some 1, some 1, -5⟩],
                    nextNeedId := 3 }, 2) ∧
    getNeed { sampleDB with
              needs := sampleDB.needs ++ [⟨2, some 1, some 1, -5⟩],
              nextNeedId := 3 } 2 = some ⟨2, some 1, some 1, -5⟩ :=
  ⟨rfl, rfl⟩

theorem contains_key_false_of_find?_none {α : Type} (key : α → Nat) (l : List α)
    (j : Nat) (h : l.find? (fun a => key a == j) = none) :
    (l.map key).contains j = false := by
  rw [List.find?_eq_none] at h
  cases hc : (l.map key).contains j
  · rfl
  · exfalso
    have hj : j ∈ l.map key := by simpa using hc
    rcases List.mem_map.mp hj with ⟨a, ha, hk⟩
    exact h a ha (by simp [hk])

/-- C2: creating a MaintenancePlan, Need, or CompletedWork whose
foreign-key field references no existing row of the correct type fails
with `ReferenceError`, producing no successor store — no row is added.
(For CompletedWork the handler parses the completion date before the
insert, so a parsable date is assumed.) -/
theorem create_fk_violation_referenceerror (db : DB) :
    (∀ f : PlanForm,
      getEquipment db f.equipmentid = none ∨ getEvent db f.eventid = none →
      createPlan db f = .error .referenceError) ∧
    (∀ f : NeedForm,
      getPlan db f.maintenanceplanid = none ∨ getAsset db f.materialassetid = none →
      createNeed db f = .error .referenceError) ∧
    (∀ f : CompletedForm, (parseDate f.completion_date).isSome →
      getPlan db f.maintenanceplanid = none →
      createCompleted db f = .error .referenceError) := by
  refine ⟨?_, ?_, ?_⟩
  · intro f h
    have hfk : planFKsOk db
        ⟨db.nextPlanId, some f.equipmentid, some f.eventid, f.periodicity⟩ = false := by
      simp only [planFKsOk]
      rcases h with h | h
      · have hc := contains_key_false_of_find?_none
          (fun e : Equipment => e.id) db.equipment f.equipmentid h
        rw [hc, Bool.false_and]
      · have hc := contains_key_false_of_find?_none
          (fun e : TOROEvent => e.id) db.events f.eventid h
        rw [hc, Bool.and_false]
    simp [createPlan, hfk]
  · intro f h
    have hfk : needFKsOk db
        ⟨db.nextNeedId, some f.maintenanceplanid, some f.materialassetid, f.quantity⟩ = false := by
      simp only [needFKsOk]
      rcases h with h | h
      · have hc := contains_key_false_of_find?_none
          (fun p : MaintenancePlan => p.id) db.plans f.maintenanceplanid h
        rw [hc, Bool.false_and]
      · have hc := contains_key_false_of_find?_none
          (fun a : MaterialAsset => a.id) db.assets f.materialassetid h
        rw [hc, Bool.and_false]
    simp [createNeed, hfk]
  · intro f hd h
    rcases Option.isSome_iff_exists.mp hd with ⟨d, hpd⟩
    have hc := contains_key_false_of_find?_none
      (fun p : MaintenancePlan => p.id) db.plans f.maintenanceplanid h
    have hfk : completedFKOk db ⟨db.nextCompletedId, some f.maintenanceplanid, d⟩ = false := by
      simp only [completedFKOk]
      rw [hc]
    simp [createCompleted, hpd, hfk]

/-- C2 witness: creating a plan for nonexistent equipment 9 in the
sample store fails with `ReferenceError`. -/
theorem create_fk_violation_referenceerror_witness :
    createPlan sampleDB ⟨9, 1, "weekly"⟩ = Except.error DbError.referenceError :=
  (create_fk_violation_referenceerror sampleDB).1 ⟨9, 1, "weekly"⟩ (Or.inl rfl)

/-- C6: a successful `update(id, fields)` replaces exactly the
form-named fields of the identified row — the identifier survives, read
back through `getById` — leaves every other row of that table and every
other table unchanged; and when a replaced foreign key points to a
non-existent row, the update of a present row fails with
`ReferenceError` (producing no successor store). -/
theorem update_replaces_named_fields (db : DB) (i : Nat) :
    (∀ (f : EquipmentForm) (db' : DB), editEquipment db i f = .ok db' →
      ∃ dt, parseFormDate f.lastmaintenancedate = some dt ∧
        getEquipment db' i = (getEquipment db i).map
          (fun e => ⟨e.id, f.type, f.name, f.status, dt⟩) ∧
        (∀ j, ¬ j = i → getEquipment db' j = getEquipment db j) ∧
        db'.events = db.events ∧ db'.plans = db.plans ∧ db'.assets = db.assets ∧
        db'.needs = db.needs ∧ db'.completed = db.completed) ∧
    (∀ (f : EventForm) (db' : DB), editEvent db i f = .ok db' →
      getEvent db' i = (getEvent db i).map (fun e => ⟨e.id, f.name, f.description⟩) ∧
      (∀ j, ¬ j = i → getEvent db' j = getEvent db j) ∧
      db'.equipment = db.equipment ∧ db'.plans = db.plans ∧ db'.assets = db.assets ∧
      db'.needs = db.needs ∧ db'.completed = db.completed) ∧
    (∀ (f : PlanForm) (db' : DB), editPlan db i f = .ok db' →
      getPlan db' i = (getPlan db i).map
        (fun p => ⟨p.id, some f.equipmentid, some f.eventid, f.periodicity⟩) ∧
      (∀ j, ¬ j = i → getPlan db' j = getPlan db j) ∧
      db'.equipment = db.equipment ∧ db'.events = db.events ∧ db'.assets = db.assets ∧
      db'.needs = db.needs ∧ db'.completed = db.completed) ∧
    (∀ (f : AssetForm) (db' : DB), editAsset db i f = .ok db' →
      getAsset db' i = (getAsset db i).map (fun a => ⟨a.id, f.materialname, f.price⟩) ∧
      (∀ j, ¬ j = i → getAsset db' j = getAsset db j) ∧
      db'.equipment = db.equipment ∧ db'.events = db.events ∧ db'.plans = db.plans ∧
      db'.needs = db.needs ∧ db'.completed = db.completed) ∧
    (∀ (f : NeedForm) (db' : DB), editNeed db i f = .ok db' →
      getNeed db' i = (getNeed db i).map
        (fun n => ⟨n.id, some f.maintenanceplanid, some f.materialassetid, f.quantity⟩) ∧
      (∀ j, ¬ j = i → getNeed db' j = getNeed db j) ∧
      db'.equipment = db.equipment ∧ db'.events = db.events ∧ db'.plans = db.plans ∧
      db'.assets = db.assets ∧ db'.completed = db.completed) ∧
    (∀ (f : CompletedForm) (db' : DB), editCompleted db i f = .ok db' →
      ∃ d, parseDate f.completion_date = some d ∧
        getCompleted db' i = (getCompleted db i).map
          (fun c => ⟨c.id, some f.maintenanceplanid, d⟩) ∧
        (∀ j, ¬ j = i → getCompleted db' j = getCompleted db j) ∧
        db'.equipment = db.equipment ∧ db'.events = db.events ∧ db'.plans = db.plans ∧
        db'.assets = db.assets ∧ db'.needs = db.needs) ∧
    (∀ (f : PlanForm) (p : MaintenancePlan), getPlan db i = some p →
      getEquipment db f.equipmentid = none ∨ getEvent db f.eventid = none →
      editPlan db i f = .error .referenceError) ∧
    (∀ (f : NeedForm) (n : Need), getNeed db i = some n →
      getPlan db f.maintenanceplanid = none ∨ getAsset db f.materialassetid = none →
      editNeed db i f = .error .referenceError) ∧
    (∀ (f : CompletedForm) (c : CompletedWork), getCompleted db i = some c →
      (parseDate f.completion_date).isSome →
      getPlan db f.maintenanceplanid = none →
      editCompleted db i f = .error .referenceError) := by
  refine ⟨?_, ?_, ?_, ?_, ?_, ?_, ?_, ?_, ?_⟩
  · intro f db' h
    cases hg : getEquipment db i with
    | none => simp [editEquipment, hg] at h
    | some e =>
      cases hpd : parseFormDate f.lastmaintenancedate with
      | none => simp [editEquipment, hg, hpd] at h
      | some dt =>
        simp [editEquipment, hg, hpd] at h
        subst h
        refine ⟨dt, rfl, ?_, ?_, rfl, rfl, rfl, rfl, rfl⟩
        · rw [← hg]
          simp only [getEquipment]
          exact find?_map_keyed_eq' (fun e : Equipment => e.id)
            (fun e => ⟨e.id, f.type, f.name, f.status, dt⟩) (fun a => rfl) db.equipment i
        · intro j hj
          simp only [getEquipment]
          exact find?_map_keyed_ne' (fun e : Equipment => e.id)
            (fun e => ⟨e.id, f.type, f.name, f.status, dt⟩) (fun a => rfl) db.equipment i j hj
  · intro f db' h
    cases hg : getEvent db i with
    | none => simp [editEvent, hg] at h
    | some e =>
      simp [editEvent, hg] at h
      subst h
      refine ⟨?_, ?_, rfl, rfl, rfl, rfl, rfl⟩
      · rw [← hg]
        simp only [getEvent]
        exact find?_map_keyed_eq' (fun e : TOROEvent => e.id)
          (fun e => ⟨e.id, f.name, f.description⟩) (fun a => rfl) db.events i
      · intro j hj
        simp only [getEvent]
        exact find?_map_keyed_ne' (fun e : TOROEvent => e.id)
          (fun e => ⟨e.id, f.name, f.description⟩) (fun a => rfl) db.events i j hj
  · intro f db' h
    cases hg : getPlan db i with
    | none => simp [editPlan, hg] at h
    | some p =>
      cases hfk : planFKsOk db ⟨p.id, some f.equipmentid, some f.eventid, f.periodicity⟩ with
      | false => simp [editPlan, hg, hfk] at h
      | true =>
        simp [editPlan, hg, hfk] at h
        subst h
        refine ⟨?_, ?_, rfl, rfl, rfl, rfl, rfl⟩
        · rw [← hg]
          simp only [getPlan]
          exact find?_map_keyed_eq' (fun p : MaintenancePlan => p.id)
            (fun p => ⟨p.id, some f.equipmentid, some f.eventid, f.periodicity⟩) (fun a => rfl) db.plans i
        · intro j hj
          simp only [getPlan]
          exact find?_map_keyed_ne' (fun p : MaintenancePlan => p.id)
            (fun p => ⟨p.id, some f.equipmentid, some f.eventid, f.periodicity⟩) (fun a => rfl) db.plans i j hj
  · intro f db' h
    cases hg : getAsset db i with
    | none => simp [editAsset, hg] at h
    | some a =>
      simp [editAsset, hg] at h
      subst h
      refine ⟨?_, ?_, rfl, rfl, rfl, rfl, rfl⟩
      · rw [← hg]
        simp only [getAsset]
        exact find?_map_keyed_eq' (fun a : MaterialAsset => a.id)
          (fun a => ⟨a.id, f.materialname, f.price⟩) (fun a => rfl) db.assets i
      · intro j hj
        simp only [getAsset]
        exact find?_map_keyed_ne' (fun a : MaterialAsset => a.id)
          (fun a => ⟨a.id, f.materialname, f.price⟩) (fun a => rfl) db.assets i j hj
  · intro f db' h
    cases hg : getNeed db i with
    | none => simp [editNeed, hg] at h
    | some n =>
      cases hfk : needFKsOk db ⟨n.id, some f.maintenanceplanid, some f.materialassetid, f.quantity⟩ with
      | false => simp [editNeed, hg, hfk] at h
      | true =>
        simp [editNeed, hg, hfk] at h
        subst h
        refine ⟨?_, ?_, rfl, rfl, rfl, rfl, rfl⟩
        · rw [← hg]
          simp only [getNeed]
          exact find?_map_keyed_eq' (fun n : Need => n.id)
            (fun n => ⟨n.id, some f.maintenanceplanid, some f.materialassetid, f.quantity⟩) (fun a => rfl) db.needs i
        · intro j hj
          simp only [getNeed]
          exact find?_map_keyed_ne' (fun n : Need => n.id)
            (fun n => ⟨n.id, some f.maintenanceplanid, some f.materialassetid, f.quantity⟩) (fun a => rfl) db.needs i j hj
  · intro f db' h
    cases hg : getCompleted db i with
    | none => simp [editCompleted, hg] at h
    | some c =>
      cases hpd : parseDate f.completion_date with
      | none => simp [editCompleted, hg, hpd] at h
      | some d =>
        cases hfk : completedFKOk db ⟨c.id, some f.maintenanceplanid, d⟩ with
        | false => simp [editCompleted, hg, hpd, hfk] at h
        | true =>
          simp [editCompleted, hg, hpd, hfk] at h
          subst h
          refine ⟨d, rfl, ?_, ?_, rfl, rfl, rfl, rfl, rfl⟩
          · rw [← hg]
            simp only [getCompleted]
            exact find?_map_keyed_eq' (fun c : CompletedWork => c.id)
              (fun c => ⟨c.id, some f.maintenanceplanid, d⟩) (fun a => rfl) db.completed i
          · intro j hj
            simp only [getCompleted]
            exact find?_map_keyed_ne' (fun c : CompletedWork => c.id)
              (fun c => ⟨c.id, some f.maintenanceplanid, d⟩) (fun a => rfl) db.completed i j hj
  · intro f p hg h
    have hfk : planFKsOk db ⟨p.id, some f.equipmentid, some f.eventid, f.periodicity⟩ = false := by
      simp only [planFKsOk]
      rcases h with h | h
      · have hc := contains_key_false_of_find?_none
          (fun e : Equipment => e.id) db.equipment f.equipmentid h
        rw [hc, Bool.false_and]
      · have hc := contains_key_false_of_find?_none
          (fun e : TOROEvent => e.id) db.events f.eventid h
        rw [hc, Bool.and_false]
    simp [editPlan, hg, hfk]
  · intro f n hg h
    have hfk : needFKsOk db ⟨n.id, some f.maintenanceplanid, some f.materialassetid, f.quantity⟩ = false := by
      simp only [needFKsOk]
      rcases h with h | h
      · have hc := contains_key_false_of_find?_none
          (fun p : MaintenancePlan => p.id) db.plans f.maintenanceplanid h
        rw [hc, Bool.false_and]
      · have hc := contains_key_false_of_find?_none
          (fun a : MaterialAsset => a.id) db.assets f.materialassetid h
        rw [hc, Bool.and_false]
    simp [editNeed, hg, hfk]
  · intro f c hg hd h
    rcases Option.isSome_iff_exists.mp hd with ⟨d, hpd⟩
    have hc := contains_key_false_of_find?_none
      (fun p : MaintenancePlan => p.id) db.plans f.maintenanceplanid h
    have hfk : completedFKOk db ⟨c.id, some f.maintenanceplanid, d⟩ = false := by
      simp only [completedFKOk]
      rw [hc]
    simp [editCompleted, hg, hpd, hfk]

/-- C6 witness: editing plan 1 of the sample store to periodicity
"daily" (same valid foreign keys) yields the row with exactly the named
fields replaced. -/
theorem update_replaces_named_fields_witness :
    getPlan sampleAfterPlanEdit 1 = (getPlan sampleDB 1).map
      (fun p => ⟨p.id, some 1, some 1, "daily"⟩) :=
  ((update_replaces_named_fields sampleDB 1).2.2.1 ⟨1, 1, "daily"⟩
    sampleAfterPlanEdit (by rfl)).1

/-- C8: on a well-formed store, a successful `create` followed by
`getById` on the returned identifier yields a row carrying exactly the
supplied fields (dates as parsed by the handler) plus the store-assigned
identifier. -/
theorem get_by_id_after_create (db : DB) (hwf : WF db) :
    (∀ (f : EquipmentForm) (db' : DB) (i : Nat), createEquipment db f = .ok (db', i) →
      ∃ dt, parseFormDate f.lastmaintenancedate = some dt ∧
        getEquipmentById db' i = .ok ⟨i, f.type, f.name, f.status, dt⟩) ∧
    (∀ (f : EventForm) (db' : DB) (i : Nat), createEvent db f = .ok (db', i) →
      getEventById db' i = .ok ⟨i, f.name, f.description⟩) ∧
    (∀ (f : PlanForm) (db' : DB) (i : Nat), createPlan db f = .ok (db', i) →
      getPlanById db' i = .ok ⟨i, some f.equipmentid, some f.eventid, f.periodicity⟩) ∧
    (∀ (f : AssetForm) (db' : DB) (i : Nat), createAsset db f = .ok (db', i) →
      getAssetById db' i = .ok ⟨i, f.materialname, f.price⟩) ∧
    (∀ (f : NeedForm) (db' : DB) (i : Nat), createNeed db f = .ok (db', i) →
      getNeedById db' i = .ok ⟨i, some f.maintenanceplanid, some f.materialassetid, f.quantity⟩) ∧
    (∀ (f : CompletedForm) (db' : DB) (i : Nat), createCompleted db f = .ok (db', i) →
      ∃ d, parseDate f.completion_date = some d ∧
        getCompletedById db' i = .ok ⟨i, some f.maintenanceplanid, d⟩) := by
  refine ⟨?_, ?_, ?_, ?_, ?_, ?_⟩
  · intro f db' i h
    cases hpd : parseFormDate f.lastmaintenancedate with
    | none => simp [createEquipment, hpd] at h
    | some dt =>
      simp [createEquipment, hpd, Prod.ext_iff] at h
      obtain ⟨h1, h2⟩ := h
      subst h1
      subst h2
      refine ⟨dt, rfl, ?_⟩
      have hfresh : ∀ e ∈ db.equipment, (e.id == db.nextEquipmentId) = false := by
        intro e he
        have hlt := hwf.1.2 e.id (List.mem_map_of_mem _ he)
        simp [Nat.ne_of_lt hlt]
      simp only [getEquipmentById, getEquipment]
      rw [find?_append_fresh _ _ _ hfresh]
      simp
  · intro f db' i h
    simp [createEvent, Prod.ext_iff] at h
    obtain ⟨h1, h2⟩ := h
    subst h1
    subst h2
    have hfresh : ∀ e ∈ db.events, (e.id == db.nextEventId) = false := by
      intro e he
      have hlt := hwf.2.1.2 e.id (List.mem_map_of_mem _ he)
      simp [Nat.ne_of_lt hlt]
    simp only [getEventById, getEvent]
    rw [find?_append_fresh _ _ _ hfresh]
    simp
  · intro f db' i h
    cases hfk : planFKsOk db ⟨db.nextPlanId, some f.equipmentid, some f.eventid, f.periodicity⟩ with
    | false => simp [createPlan, hfk] at h
    | true =>
      simp [createPlan, hfk, Prod.ext_iff] at h
      obtain ⟨h1, h2⟩ := h
      subst h1
      subst h2
      have hfresh : ∀ p ∈ db.plans, (p.id == db.nextPlanId) = false := by
        intro p hp
        have hlt := hwf.2.2.1.2 p.id (List.mem_map_of_mem _ hp)
        simp [Nat.ne_of_lt hlt]
      simp only [getPlanById, getPlan]
      rw [find?_append_fresh _ _ _ hfresh]
      simp
  · intro f db' i h
    simp [createAsset, Prod.ext_iff] at h
    obtain ⟨h1, h2⟩ := h
    subst h1
    subst h2
    have hfresh : ∀ a ∈ db.assets, (a.id == db.nextAssetId) = false := by
      intro a ha
      have hlt := hwf.2.2.2.1.2 a.id (List.mem_map_of_mem _ ha)
      simp [Nat.ne_of_lt hlt]
    simp only [getAssetById, getAsset]
    rw [find?_append_fresh _ _ _ hfresh]
    simp
  · intro f db' i h
    cases hfk : needFKsOk db ⟨db.nextNeedId, some f.maintenanceplanid, some f.materialassetid, f.quantity⟩ with
    | false => simp [createNeed, hfk] at h
    | true =>
      simp [createNeed, hfk, Prod.ext_iff] at h
      obtain ⟨h1, h2⟩ := h
      subst h1
      subst h2
      have hfresh : ∀ n ∈ db.needs, (n.id == db.nextNeedId) = false := by
        intro n hn
        have hlt := hwf.2.2.2.2.1.2 n.id (List.mem_map_of_mem _ hn)
        simp [Nat.ne_of_lt hlt]
      simp only [getNeedById, getNeed]
      rw [find?_append_fresh _ _ _ hfresh]
      simp
  · intro f db' i h
    cases hpd : parseDate f.completion_date with
    | none => simp [createCompleted, hpd] at h
    | some d =>
      cases hfk : completedFKOk db ⟨db.nextCompletedId, some f.maintenanceplanid, d⟩ with
      | false => simp [createCompleted, hpd, hfk] at h
      | true =>
        simp [createCompleted, hpd, hfk, Prod.ext_iff] at h
        obtain ⟨h1, h2⟩ := h
        subst h1
        subst h2
        refine ⟨d, rfl, ?_⟩
        have hfresh : ∀ c ∈ db.completed, (c.id == db.nextCompletedId) = false := by
          intro c hc
          have hlt := hwf.2.2.2.2.2.2 c.id (List.mem_map_of_mem _ hc)
          simp [Nat.ne_of_lt hlt]
        simp only [getCompletedById, getCompleted]
        rw [find?_append_fresh _ _ _ hfresh]
        simp

theorem pairwise_lt_nodup (l : List Nat) (h : l.Pairwise (· < ·)) : l.Nodup :=
  h.imp (fun hab => Nat.ne_of_lt hab)

theorem deleteEquipment_spec (db : DB) (i N M K : Nat) (hwf : WF db)
    (hmem : ∃ e ∈ db.equipment, e.id = i)
    (hN : (db.plans.filter (fun p => p.equipmentid == some i)).length = N)
    (hMK : ∀ p ∈ db.plans.filter (fun p => p.equipmentid == some i),
      (db.needs.filter (fun n => n.maintenanceplanid == some p.id)).length = M ∧
      (db.completed.filter (fun c => c.maintenanceplanid == some p.id)).length = K) :
    ∃ db', deleteEquipment db i = .ok db' ∧
      totalRows db = totalRows db' + (1 + N + N * M + N * K) ∧
      getEquipment db' i = none ∧
      (∀ p ∈ db'.plans, ¬ p.equipmentid = some i) ∧
      (∀ n ∈ db'.needs, ∀ pid, n.maintenanceplanid = some pid →
        pid ∉ (db.plans.filter (fun p => p.equipmentid == some i)).map (fun p => p.id)) ∧
      (∀ c ∈ db'.completed, ∀ pid, c.maintenanceplanid = some pid →
        pid ∉ (db.plans.filter (fun p => p.equipmentid == some i)).map (fun p => p.id)) ∧
      (RI db → RI db') := by
  obtain ⟨e, he, hei⟩ := hmem
  have hg : ∃ e', getEquipment db i = some e' := by
    cases hg : getEquipment db i with
    | some e' => exact ⟨e', rfl⟩
    | none =>
      exfalso
      rw [getEquipment, List.find?_eq_none] at hg
      exact hg e he (by simp [hei])
  obtain ⟨e', hg⟩ := hg
  refine ⟨{ db with
      equipment := db.equipment.filter (fun e => !(e.id == i)),
      plans := db.plans.filter (fun p => !(p.equipmentid == some i)),
      needs := db.needs.filter (fun n => !(needRefsAny
        ((db.plans.filter (fun p => p.equipmentid == some i)).map (fun p => p.id)) n)),
      completed := db.completed.filter (fun c => !(completedRefsAny
        ((db.plans.filter (fun p => p.equipmentid == some i)).map (fun p => p.id)) c)) },
    ?_, ?_, ?_, ?_, ?_, ?_, ?_⟩
  · simp [deleteEquipment, hg]
  · -- row counting
    have nodupE := pairwise_lt_nodup _ hwf.1.1
    have nodupP := pairwise_lt_nodup _ hwf.2.2.1.1
    have nodupDead : ((db.plans.filter (fun p => p.equipmentid == some i)).map
        (fun p => p.id)).Nodup :=
      List.Nodup.sublist ((List.filter_sublist db.plans).map (fun p => p.id)) nodupP
    have hEq1 := length_filter_not_split (fun e : Equipment => e.id == i) db.equipment
    have hEq2 := length_filter_key_unique (fun e : Equipment => e.id) db.equipment i nodupE e he hei
    have hPl := length_filter_not_split (fun p : MaintenancePlan => p.equipmentid == some i) db.plans
    have hNeSum := length_filter_refHits (fun n : Need => n.maintenanceplanid)
      ((db.plans.filter (fun p => p.equipmentid == some i)).map (fun p => p.id)) db.needs nodupDead
    have hCoSum := length_filter_refHits (fun c : CompletedWork => c.maintenanceplanid)
      ((db.plans.filter (fun p => p.equipmentid == some i)).map (fun p => p.id)) db.completed nodupDead
    have hMr : ∀ pid ∈ (db.plans.filter (fun p => p.equipmentid == some i)).map (fun p => p.id),
        (db.needs.filter (fun n => n.maintenanceplanid == some pid)).length = M := by
      intro pid hpid
      rcases List.mem_map.mp hpid with ⟨p, hp, rfl⟩
      exact (hMK p hp).1
    have hKr : ∀ pid ∈ (db.plans.filter (fun p => p.equipmentid == some i)).map (fun p => p.id),
        (db.completed.filter (fun c => c.maintenanceplanid == some pid)).length = K := by
      intro pid hpid
      rcases List.mem_map.mp hpid with ⟨p, hp, rfl⟩
      exact (hMK p hp).2
    have hdeadlen : ((db.plans.filter (fun p => p.equipmentid == some i)).map
        (fun p => p.id)).length = N := by
      rw [List.length_map]
      exact hN
    have hNe : (db.needs.filter (fun n => needRefsAny
        ((db.plans.filter (fun p => p.equipmentid == some i)).map (fun p => p.id)) n)).length
        = N * M := by
      simp only [needRefsAny]
      rw [hNeSum, sum_map_const_of _ M _ hMr, hdeadlen]
    have hCo : (db.completed.filter (fun c => completedRefsAny
        ((db.plans.filter (fun p => p.equipmentid == some i)).map (fun p => p.id)) c)).length
        = N * K := by
      simp only [completedRefsAny]
      rw [hCoSum, sum_map_const_of _ K _ hKr, hdeadlen]
    have hNeSplit := length_filter_not_split (fun n : Need => needRefsAny
      ((db.plans.filter (fun p => p.equipmentid == some i)).map (fun p => p.id)) n) db.needs
    have hCoSplit := length_filter_not_split (fun c : CompletedWork => completedRefsAny
      ((db.plans.filter (fun p => p.equipmentid == some i)).map (fun p => p.id)) c) db.completed
    rw [hNe] at hNeSplit
    rw [hCo] at hCoSplit
    beta_reduce at hEq1 hEq2 hPl hNeSplit hCoSplit
    simp only [totalRows]
    rw [show db.equipment.length
        = (db.equipment.filter (fun e => !(e.id == i))).length + 1 by omega]
    rw [show db.plans.length
        = (db.plans.filter (fun p => !(p.equipmentid == some i))).length + N by omega]
    rw [← hNeSplit, ← hCoSplit]
    ring
  · exact find?_filter_not _ _
  · intro p hp
    have hpred := (List.mem_filter.mp hp).2
    simpa using hpred
  · intro n hn pid hpid
    have hpred := (List.mem_filter.mp hn).2
    simp only [needRefsAny] at hpred
    rw [hpid] at hpred
    simpa [refHits] using hpred
  · intro c hc pid hpid
    have hpred := (List.mem_filter.mp hc).2
    simp only [completedRefsAny] at hpred
    rw [hpid] at hpred
    simpa [refHits] using hpred
  · intro hri
    obtain ⟨hriP, hriN, hriC⟩ := hri
    refine ⟨?_, ?_, ?_⟩
    · intro p hp
      have hpm := List.mem_filter.mp hp
      have hpe := hriP p hpm.1
      have hpne : ¬ p.equipmentid = some i := by simpa using hpm.2
      constructor
      · intro j hj
        rcases hpe.1 j hj with ⟨e2, he2, he2i⟩
        refine ⟨e2, List.mem_filter.mpr ⟨he2, ?_⟩, he2i⟩
        have hji : ¬ j = i := fun hcon => hpne (by rw [hj, hcon])
        simp [he2i, hji]
      · intro j hj
        exact hpe.2 j hj
    · intro n hn
      have hnm := List.mem_filter.mp hn
      have hne := hriN n hnm.1
      constructor
      · intro j hj
        rcases hne.1 j hj with ⟨p, hp, hpi⟩
        refine ⟨p, List.mem_filter.mpr ⟨hp, ?_⟩, hpi⟩
        by_contra hcon
        simp at hcon
        have hdead : p.id ∈ (db.plans.filter (fun p => p.equipmentid == some i)).map
            (fun p => p.id) :=
          List.mem_map_of_mem _ (List.mem_filter.mpr ⟨hp, by simp [hcon]⟩)
        have hhit : needRefsAny ((db.plans.filter (fun p => p.equipmentid == some i)).map
            (fun p => p.id)) n = true := by
          simp only [needRefsAny]
          rw [hj]
          simp only [refHits]
          have hjm : j ∈ (db.plans.filter (fun p => p.equipmentid == some i)).map
              (fun p => p.id) := by
            rw [← hpi]
            exact hdead
          simpa using hjm
        have := hnm.2
        simp [hhit] at this
      · intro j hj
        exact hne.2 j hj
    · intro c hc
      have hcm := List.mem_filter.mp hc
      have hce := hriC c hcm.1
      intro j hj
      rcases hce j hj with ⟨p, hp, hpi⟩
      refine ⟨p, List.mem_filter.mpr ⟨hp, ?_⟩, hpi⟩
      by_contra hcon
      simp at hcon
      have hdead : p.id ∈ (db.plans.filter (fun p => p.equipmentid == some i)).map
          (fun p => p.id) :=
        List.mem_map_of_mem _ (List.mem_filter.mpr ⟨hp, by simp [hcon]⟩)
      have hhit : completedRefsAny ((db.plans.filter (fun p => p.equipmentid == some i)).map
          (fun p => p.id)) c = true := by
        simp only [completedRefsAny]
        rw [hj]
        simp only [refHits]
        have hjm : j ∈ (db.plans.filter (fun p => p.equipmentid == some i)).map
            (fun p => p.id) := by
          rw [← hpi]
          exact hdead
        simpa using hjm
      have := hcm.2
      simp [hhit] at this

theorem deleteEvent_spec (db : DB) (i N M K : Nat) (hwf : WF db)
    (hmem : ∃ e ∈ db.events, e.id = i)
    (hN : (db.plans.filter (fun p => p.eventid == some i)).length = N)
    (hMK : ∀ p ∈ db.plans.filter (fun p => p.eventid == some i),
      (db.needs.filter (fun n => n.maintenanceplanid == some p.id)).length = M ∧
      (db.completed.filter (fun c => c.maintenanceplanid == some p.id)).length = K) :
    ∃ db', deleteEvent db i = .ok db' ∧
      totalRows db = totalRows db' + (1 + N + N * M + N * K) ∧
      getEvent db' i = none ∧
      (∀ p ∈ db'.plans, ¬ p.eventid = some i) ∧
      (∀ n ∈ db'.needs, ∀ pid, n.maintenanceplanid = some pid →
        pid ∉ (db.plans.filter (fun p => p.eventid == some i)).map (fun p => p.id)) ∧
      (∀ c ∈ db'.completed, ∀ pid, c.maintenanceplanid = some pid →
        pid ∉ (db.plans.filter (fun p => p.eventid == some i)).map (fun p => p.id)) ∧
      (RI db → RI db') := by
  obtain ⟨e, he, hei⟩ := hmem
  have hg : ∃ e', getEvent db i = some e' := by
    cases hg : getEvent db i with
    | some e' => exact ⟨e', rfl⟩
    | none =>
      exfalso
      rw [getEvent, List.find?_eq_none] at hg
      exact hg e he (by simp [hei])
  obtain ⟨e', hg⟩ := hg
  refine ⟨{ db with
      events := db.events.filter (fun e => !(e.id == i)),
      plans := db.plans.filter (fun p => !(p.eventid == some i)),
      needs := db.needs.filter (fun n => !(needRefsAny
        ((db.plans.filter (fun p => p.eventid == some i)).map (fun p => p.id)) n)),
      completed := db.completed.filter (fun c => !(completedRefsAny
        ((db.plans.filter (fun p => p.eventid == some i)).map (fun p => p.id)) c)) },
    ?_, ?_, ?_, ?_, ?_, ?_, ?_⟩
  · simp [deleteEvent, hg]
  · have nodupE := pairwise_lt_nodup _ hwf.2.1.1
    have nodupP := pairwise_lt_nodup _ hwf.2.2.1.1
    have nodupDead : ((db.plans.filter (fun p => p.eventid == some i)).map
        (fun p => p.id)).Nodup :=
      List.Nodup.sublist ((List.filter_sublist db.plans).map (fun p => p.id)) nodupP
    have hEq1 := length_filter_not_split (fun e : TOROEvent => e.id == i) db.events
    have hEq2 := length_filter_key_unique (fun e : TOROEvent => e.id) db.events i nodupE e he hei
    have hPl := length_filter_not_split (fun p : MaintenancePlan => p.eventid == some i) db.plans
    have hNeSum := length_filter_refHits (fun n : Need => n.maintenanceplanid)
      ((db.plans.filter (fun p => p.eventid == some i)).map (fun p => p.id)) db.needs nodupDead
    have hCoSum := length_filter_refHits (fun c : CompletedWork => c.maintenanceplanid)
      ((db.plans.filter (fun p => p.eventid == some i)).map (fun p => p.id)) db.completed nodupDead
    have hMr : ∀ pid ∈ (db.plans.filter (fun p => p.eventid == some i)).map (fun p => p.id),
        (db.needs.filter (fun n => n.maintenanceplanid == some pid)).length = M := by
      intro pid hpid
      rcases List.mem_map.mp hpid with ⟨p, hp, rfl⟩
      exact (hMK p hp).1
    have hKr : ∀ pid ∈ (db.plans.filter (fun p => p.eventid == some i)).map (fun p => p.id),
        (db.completed.filter (fun c => c.maintenanceplanid == some pid)).length = K := by
      intro pid hpid
      rcases List.mem_map.mp hpid with ⟨p, hp, rfl⟩
      exact (hMK p hp).2
    have hdeadlen : ((db.plans.filter (fun p => p.eventid == some i)).map
        (fun p => p.id)).length = N := by
      rw [List.length_map]
      exact hN
    have hNe : (db.needs.filter (fun n => needRefsAny
        ((db.plans.filter (fun p => p.eventid == some i)).map (fun p => p.id)) n)).length
        = N * M := by
      simp only [needRefsAny]
      rw [hNeSum, sum_map_const_of _ M _ hMr, hdeadlen]
    have hCo : (db.completed.filter (fun c => completedRefsAny
        ((db.plans.filter (fun p => p.eventid == some i)).map (fun p => p.id)) c)).length
        = N * K := by
      simp only [completedRefsAny]
      rw [hCoSum, sum_map_const_of _ K _ hKr, hdeadlen]
    have hNeSplit := length_filter_not_split (fun n : Need => needRefsAny
      ((db.plans.filter (fun p => p.eventid == some i)).map (fun p => p.id)) n) db.needs
    have hCoSplit := length_filter_not_split (fun c : CompletedWork => completedRefsAny
      ((db.plans.filter (fun p => p.eventid == some i)).map (fun p => p.id)) c) db.completed
    rw [hNe] at hNeSplit
    rw [hCo] at hCoSplit
    beta_reduce at hEq1 hEq2 hPl hNeSplit hCoSplit
    simp only [totalRows]
    rw [show db.events.length
        = (db.events.filter (fun e => !(e.id == i))).length + 1 by omega]
    rw [show db.plans.length
        = (db.plans.filter (fun p => !(p.eventid == some i))).length + N by omega]
    rw [← hNeSplit, ← hCoSplit]
    ring
  · exact find?_filter_not _ _
  · intro p hp
    have hpred := (List.mem_filter.mp hp).2
    simpa using hpred
  · intro n hn pid hpid
    have hpred := (List.mem_filter.mp hn).2
    simp only [needRefsAny] at hpred
    rw [hpid] at hpred
    simpa [refHits] using hpred
  · intro c hc pid hpid
    have hpred := (List.mem_filter.mp hc).2
    simp only [completedRefsAny] at hpred
    rw [hpid] at hpred
    simpa [refHits] using hpred
  · intro hri
    obtain ⟨hriP, hriN, hriC⟩ := hri
    refine ⟨?_, ?_, ?_⟩
    · intro p hp
      have hpm := List.mem_filter.mp hp
      have hpe := hriP p hpm.1
      have hpne : ¬ p.eventid = some i := by simpa using hpm.2
      constructor
      · intro j hj
        exact hpe.1 j hj
      · intro j hj
        rcases hpe.2 j hj with ⟨e2, he2, he2i⟩
        refine ⟨e2, List.mem_filter.mpr ⟨he2, ?_⟩, he2i⟩
        have hji : ¬ j = i := fun hcon => hpne (by rw [hj, hcon])
        simp [he2i, hji]
    · intro n hn
      have hnm := List.mem_filter.mp hn
      have hne := hriN n hnm.1
      constructor
      · intro j hj
        rcases hne.1 j hj with ⟨p, hp, hpi⟩
        refine ⟨p, List.mem_filter.mpr ⟨hp, ?_⟩, hpi⟩
        by_contra hcon
        simp at hcon
        have hdead : p.id ∈ (db.plans.filter (fun p => p.eventid == some i)).map
            (fun p => p.id) :=
          List.mem_map_of_mem _ (List.mem_filter.mpr ⟨hp, by simp [hcon]⟩)
        have hhit : needRefsAny ((db.plans.filter (fun p => p.eventid == some i)).map
            (fun p => p.id)) n = true := by
          simp only [needRefsAny]
          rw [hj]
          simp only [refHits]
          have hjm : j ∈ (db.plans.filter (fun p => p.eventid == some i)).map
              (fun p => p.id) := by
            rw [← hpi]
            exact hdead
          simpa using hjm
        have := hnm.2
        simp [hhit] at this
      · intro j hj
        exact hne.2 j hj
    · intro c hc
      have hcm := List.mem_filter.mp hc
      have hce := hriC c hcm.1
      intro j hj
      rcases hce j hj with ⟨p, hp, hpi⟩
      refine ⟨p, List.mem_filter.mpr ⟨hp, ?_⟩, hpi⟩
      by_contra hcon
      simp at hcon
      have hdead : p.id ∈ (db.plans.filter (fun p => p.eventid == some i)).map
          (fun p => p.id) :=
        List.mem_map_of_mem _ (List.mem_filter.mpr ⟨hp, by simp [hcon]⟩)
      have hhit : completedRefsAny ((db.plans.filter (fun p => p.eventid == some i)).map
          (fun p => p.id)) c = true := by
        simp only [completedRefsAny]
        rw [hj]
        simp only [refHits]
        have hjm : j ∈ (db.plans.filter (fun p => p.eventid == some i)).map
            (fun p => p.id) := by
          rw [← hpi]
          exact hdead
        simpa using hjm
      have := hcm.2
      simp [hhit] at this

/-- C1: deleting an Equipment (or Event) row cascades two levels deep:
with the row present, N plans referencing it, and each such plan having
exactly M needs and K completed works, the delete succeeds, exactly
1 + N + N·M + N·K rows disappear, the deleted row is gone, and no
MaintenancePlan references the deleted row nor any Need/CompletedWork a
deleted plan afterwards; referential integrity is preserved, so no
orphaned row of any kind remains. -/
theorem cascade_delete_equipment_event (db : DB) (i N M K : Nat) (hwf : WF db) :
    ((∃ e ∈ db.equipment, e.id = i) →
     (db.plans.filter (fun p => p.equipmentid == some i)).length = N →
     (∀ p ∈ db.plans.filter (fun p => p.equipmentid == some i),
        (db.needs.filter (fun n => n.maintenanceplanid == some p.id)).length = M ∧
        (db.completed.filter (fun c => c.maintenanceplanid == some p.id)).length = K) →
     ∃ db', deleteEquipment db i = .ok db' ∧
       totalRows db = totalRows db' + (1 + N + N * M + N * K) ∧
       getEquipment db' i = none ∧
       (∀ p ∈ db'.plans, ¬ p.equipmentid = some i) ∧
       (∀ n ∈ db'.needs, ∀ pid, n.maintenanceplanid = some pid →
         pid ∉ (db.plans.filter (fun p => p.equipmentid == some i)).map (fun p => p.id)) ∧
       (∀ c ∈ db'.completed, ∀ pid, c.maintenanceplanid = some pid →
         pid ∉ (db.plans.filter (fun p => p.equipmentid == some i)).map (fun p => p.id)) ∧
       (RI db → RI db')) ∧
    ((∃ e ∈ db.events, e.id = i) →
     (db.plans.filter (fun p => p.eventid == some i)).length = N →
     (∀ p ∈ db.plans.filter (fun p => p.eventid == some i),
        (db.needs.filter (fun n => n.maintenanceplanid == some p.id)).length = M ∧
        (db.completed.filter (fun c => c.maintenanceplanid == some p.id)).length = K) →
     ∃ db', deleteEvent db i = .ok db' ∧
       totalRows db = totalRows db' + (1 + N + N * M + N * K) ∧
       getEvent db' i = none ∧
       (∀ p ∈ db'.plans, ¬ p.eventid = some i) ∧
       (∀ n ∈ db'.needs, ∀ pid, n.maintenanceplanid = some pid →
         pid ∉ (db.plans.filter (fun p => p.eventid == some i)).map (fun p => p.id)) ∧
       (∀ c ∈ db'.completed, ∀ pid, c.maintenanceplanid = some pid →
         pid ∉ (db.plans.filter (fun p => p.eventid == some i)).map (fun p => p.id)) ∧
       (RI db → RI db')) :=
  ⟨fun hmem hN hMK => deleteEquipment_spec db i N M K hwf hmem hN hMK,
   fun hmem hN hMK => deleteEvent_spec db i N M K hwf hmem hN hMK⟩

/-- C1 witness: deleting equipment 1 from `wideDB` (two dependent plans,
each with two needs and two completed works) removes exactly
1 + 2 + 2·2 + 2·2 = 11 rows and leaves no referencing row behind. -/
theorem cascade_delete_equipment_event_witness :
    ∃ db', deleteEquipment wideDB 1 = Except.ok db' ∧
      totalRows wideDB = totalRows db' + (1 + 2 + 2 * 2 + 2 * 2) ∧
      getEquipment db' 1 = none ∧
      (∀ p ∈ db'.plans, ¬ p.equipmentid = some 1) ∧
      (∀ n ∈ db'.needs, ∀ pid, n.maintenanceplanid = some pid →
        pid ∉ (wideDB.plans.filter (fun p => p.equipmentid == some 1)).map (fun p => p.id)) ∧
      (∀ c ∈ db'.completed, ∀ pid, c.maintenanceplanid = some pid →
        pid ∉ (wideDB.plans.filter (fun p => p.equipmentid == some 1)).map (fun p => p.id)) ∧
      (RI wideDB → RI db') :=
  (cascade_delete_equipment_event wideDB 1 2 2 2 (by decide)).1
    ⟨⟨1, "Mower", "M1", "active", none⟩, by decide, rfl⟩ (by decide) (by decide)

/-- C8 witness: creating a plan for equipment 1 / event 1 in the sample
store assigns id 2, and `getById 2` returns exactly the supplied
fields. -/
theorem get_by_id_after_create_witness :
    getPlanById { sampleDB with
                  plans := sampleDB.plans ++ [⟨2, some 1, some 1, "yearly"⟩],
                  nextPlanId := 3 } 2
      = Except.ok ⟨2, some 1, some 1, "yearly"⟩ :=
  (get_by_id_after_create sampleDB (by decide)).2.2.1 ⟨1, 1, "yearly"⟩
    { sampleDB with
      plans := sampleDB.plans ++ [⟨2, some 1, some 1, "yearly"⟩],
      nextPlanId := 3 } 2 rfl

/-! ## Well-formedness is an invariant of every operation -/

theorem createEquipment_preserves_WF (db : DB) (f : EquipmentForm) (db' : DB) (i : Nat)
    (hwf : WF db) (h : createEquipment db f = .ok (db', i)) : WF db' := by
  cases hpd : parseFormDate f.lastmaintenancedate with
  | none => simp [createEquipment, hpd] at h
  | some dt =>
    simp [createEquipment, hpd, Prod.ext_iff] at h
    obtain ⟨h1, h2⟩ := h
    subst h1
    exact ⟨tableWF_append (fun e : Equipment => e.id) db.equipment _ _ hwf.1 rfl,
      hwf.2.1, hwf.2.2.1, hwf.2.2.2.1, hwf.2.2.2.2.1, hwf.2.2.2.2.2⟩

theorem createEvent_preserves_WF (db : DB) (f : EventForm) (db' : DB) (i : Nat)
    (hwf : WF db) (h : createEvent db f = .ok (db', i)) : WF db' := by
  simp [createEvent, Prod.ext_iff] at h
  obtain ⟨h1, h2⟩ := h
  subst h1
  exact ⟨hwf.1, tableWF_append (fun e : TOROEvent => e.id) db.events _ _ hwf.2.1 rfl,
    hwf.2.2.1, hwf.2.2.2.1, hwf.2.2.2.2.1, hwf.2.2.2.2.2⟩

theorem createPlan_preserves_WF (db : DB) (f : PlanForm) (db' : DB) (i : Nat)
    (hwf : WF db) (h : createPlan db f = .ok (db', i)) : WF db' := by
  cases hfk : planFKsOk db ⟨db.nextPlanId, some f.equipmentid, some f.eventid, f.periodicity⟩ with
  | false => simp [createPlan, hfk] at h
  | true =>
    simp [createPlan, hfk, Prod.ext_iff] at h
    obtain ⟨h1, h2⟩ := h
    subst h1
    exact ⟨hwf.1, hwf.2.1,
      tableWF_append (fun p : MaintenancePlan => p.id) db.plans _ _ hwf.2.2.1 rfl,
      hwf.2.2.2.1, hwf.2.2.2.2.1, hwf.2.2.2.2.2⟩

theorem createAsset_preserves_WF (db : DB) (f : AssetForm) (db' : DB) (i : Nat)
    (hwf : WF db) (h : createAsset db f = .ok (db', i)) : WF db' := by
  simp [createAsset, Prod.ext_iff] at h
  obtain ⟨h1, h2⟩ := h
  subst h1
  exact ⟨hwf.1, hwf.2.1, hwf.2.2.1,
    tableWF_append (fun a : MaterialAsset => a.id) db.assets _ _ hwf.2.2.2.1 rfl,
    hwf.2.2.2.2.1, hwf.2.2.2.2.2⟩

theorem createNeed_preserves_WF (db : DB) (f : NeedForm) (db' : DB) (i : Nat)
    (hwf : WF db) (h : createNeed db f = .ok (db', i)) : WF db' := by
  cases hfk : needFKsOk db
      ⟨db.nextNeedId, some f.maintenanceplanid, some f.materialassetid, f.quantity⟩ with
  | false => simp [createNeed, hfk] at h
  | true =>
    simp [createNeed, hfk, Prod.ext_iff] at h
    obtain ⟨h1, h2⟩ := h
    subst h1
    exact ⟨hwf.1, hwf.2.1, hwf.2.2.1, hwf.2.2.2.1,
      tableWF_append (fun n : Need => n.id) db.needs _ _ hwf.2.2.2.2.1 rfl,
      hwf.2.2.2.2.2⟩

theorem createCompleted_preserves_WF (db : DB) (f : CompletedForm) (db' : DB) (i : Nat)
    (hwf : WF db) (h : createCompleted db f = .ok (db', i)) : WF db' := by
  cases hpd : parseDate f.completion_date with
  | none => simp [createCompleted, hpd] at h
  | some d =>
    cases hfk : completedFKOk db ⟨db.nextCompletedId, some f.maintenanceplanid, d⟩ with
    | false => simp [createCompleted, hpd, hfk] at h
    | true =>
      simp [createCompleted, hpd, hfk, Prod.ext_iff] at h
      obtain ⟨h1, h2⟩ := h
      subst h1
      exact ⟨hwf.1, hwf.2.1, hwf.2.2.1, hwf.2.2.2.1, hwf.2.2.2.2.1,
        tableWF_append (fun c : CompletedWork => c.id) db.completed _ _ hwf.2.2.2.2.2 rfl⟩

theorem deleteEquipment_preserves_WF (db : DB) (i : Nat) (db' : DB)
    (hwf : WF db) (h : deleteEquipment db i = .ok db') : WF db' := by
  cases hg : getEquipment db i with
  | none => simp [deleteEquipment, hg] at h
  | some e =>
    simp [deleteEquipment, hg] at h
    subst h
    exact ⟨tableWF_filter _ _ _ _ hwf.1, hwf.2.1, tableWF_filter _ _ _ _ hwf.2.2.1,
      hwf.2.2.2.1, tableWF_filter _ _ _ _ hwf.2.2.2.2.1,
      tableWF_filter _ _ _ _ hwf.2.2.2.2.2⟩

theorem deleteEvent_preserves_WF (db : DB) (i : Nat) (db' : DB)
    (hwf : WF db) (h : deleteEvent db i = .ok db') : WF db' := by
  cases hg : getEvent db i with
  | none => simp [deleteEvent, hg] at h
  | some e =>
    simp [deleteEvent, hg] at h
    subst h
    exact ⟨hwf.1, tableWF_filter _ _ _ _ hwf.2.1, tableWF_filter _ _ _ _ hwf.2.2.1,
      hwf.2.2.2.1, tableWF_filter _ _ _ _ hwf.2.2.2.2.1,
      tableWF_filter _ _ _ _ hwf.2.2.2.2.2⟩

theorem deletePlan_preserves_WF (db : DB) (i : Nat) (db' : DB)
    (hwf : WF db) (h : deletePlan db i = .ok db') : WF db' := by
  cases hg : getPlan db i with
  | none => simp [deletePlan, hg] at h
  | some p =>
    simp [deletePlan, hg] at h
    subst h
    exact ⟨hwf.1, hwf.2.1, tableWF_filter _ _ _ _ hwf.2.2.1, hwf.2.2.2.1,
      tableWF_filter _ _ _ _ hwf.2.2.2.2.1, tableWF_filter _ _ _ _ hwf.2.2.2.2.2⟩

theorem deleteAsset_preserves_WF (db : DB) (i : Nat) (db' : DB)
    (hwf : WF db) (h : deleteAsset db i = .ok db') : WF db' := by
  cases hg : getAsset db i with
  | none => simp [deleteAsset, hg] at h
  | some a =>
    simp [deleteAsset, hg] at h
    subst h
    refine ⟨hwf.1, hwf.2.1, hwf.2.2.1, tableWF_filter _ _ _ _ hwf.2.2.2.1, ?_, hwf.2.2.2.2.2⟩
    exact tableWF_map (fun n : Need => n.id) _
      (fun a => by by_cases hcond : a.materialassetid = some i <;> simp [hcond]) db.needs _
      hwf.2.2.2.2.1

theorem deleteNeed_preserves_WF (db : DB) (i : Nat) (db' : DB)
    (hwf : WF db) (h : deleteNeed db i = .ok db') : WF db' := by
  cases hg : getNeed db i with
  | none => simp [deleteNeed, hg] at h
  | some n =>
    simp [deleteNeed, hg] at h
    subst h
    exact ⟨hwf.1, hwf.2.1, hwf.2.2.1, hwf.2.2.2.1,
      tableWF_filter _ _ _ _ hwf.2.2.2.2.1, hwf.2.2.2.2.2⟩

theorem deleteCompleted_preserves_WF (db : DB) (i : Nat) (db' : DB)
    (hwf : WF db) (h : deleteCompleted db i = .ok db') : WF db' := by
  cases hg : getCompleted db i with
  | none => simp [deleteCompleted, hg] at h
  | some c =>
    simp [deleteCompleted, hg] at h
    subst h
    exact ⟨hwf.1, hwf.2.1, hwf.2.2.1, hwf.2.2.2.1, hwf.2.2.2.2.1,
      tableWF_filter _ _ _ _ hwf.2.2.2.2.2⟩

theorem editEquipment_preserves_WF (db : DB) (i : Nat) (f : EquipmentForm) (db' : DB)
    (hwf : WF db) (h : editEquipment db i f = .ok db') : WF db' := by
  cases hg : getEquipment db i with
  | none => simp [editEquipment, hg] at h
  | some e =>
    cases hpd : parseFormDate f.lastmaintenancedate with
    | none => simp [editEquipment, hg, hpd] at h
    | some dt =>
      simp [editEquipment, hg, hpd] at h
      subst h
      refine ⟨?_, hwf.2.1, hwf.2.2.1, hwf.2.2.2.1, hwf.2.2.2.2.1, hwf.2.2.2.2.2⟩
      exact tableWF_map (fun e : Equipment => e.id) _
        (fun a => by by_cases hcond : a.id = i <;> simp [hcond]) db.equipment _ hwf.1

theorem editEvent_preserves_WF (db : DB) (i : Nat) (f : EventForm) (db' : DB)
    (hwf : WF db) (h : editEvent db i f = .ok db') : WF db' := by
  cases hg : getEvent db i with
  | none => simp [editEvent, hg] at h
  | some e =>
    simp [editEvent, hg] at h
    subst h
    refine ⟨hwf.1, ?_, hwf.2.2.1, hwf.2.2.2.1, hwf.2.2.2.2.1, hwf.2.2.2.2.2⟩
    exact tableWF_map (fun e : TOROEvent => e.id) _
      (fun a => by by_cases hcond : a.id = i <;> simp [hcond]) db.events _ hwf.2.1

theorem editPlan_preserves_WF (db : DB) (i : Nat) (f : PlanForm) (db' : DB)
    (hwf : WF db) (h : editPlan db i f = .ok db') : WF db' := by
  cases hg : getPlan db i with
  | none => simp [editPlan, hg] at h
  | some p =>
    cases hfk : planFKsOk db ⟨p.id, some f.equipmentid, some f.eventid, f.periodicity⟩ with
    | false => simp [editPlan, hg, hfk] at h
    | true =>
      simp [editPlan, hg, hfk] at h
      subst h
      refine ⟨hwf.1, hwf.2.1, ?_, hwf.2.2.2.1, hwf.2.2.2.2.1, hwf.2.2.2.2.2⟩
      exact tableWF_map (fun p : MaintenancePlan => p.id) _
        (fun a => by by_cases hcond : a.id = i <;> simp [hcond]) db.plans _ hwf.2.2.1

theorem editAsset_preserves_WF (db : DB) (i : Nat) (f : AssetForm) (db' : DB)
    (hwf : WF db) (h : editAsset db i f = .ok db') : WF db' := by
  cases hg : getAsset db i with
  | none => simp [editAsset, hg] at h
  | some a =>
    simp [editAsset, hg] at h
    subst h
    refine ⟨hwf.1, hwf.2.1, hwf.2.2.1, ?_, hwf.2.2.2.2.1, hwf.2.2.2.2.2⟩
    exact tableWF_map (fun a : MaterialAsset => a.id) _
      (fun a => by by_cases hcond : a.id = i <;> simp [hcond]) db.assets _ hwf.2.2.2.1

theorem editNeed_preserves_WF (db : DB) (i : Nat) (f : NeedForm) (db' : DB)
    (hwf : WF db) (h : editNeed db i f = .ok db') : WF db' := by
  cases hg : getNeed db i with
  | none => simp [editNeed, hg] at h
  | some n =>
    cases hfk : needFKsOk db
        ⟨n.id, some f.maintenanceplanid, some f.materialassetid, f.quantity⟩ with
    | false => simp [editNeed, hg, hfk] at h
    | true =>
      simp [editNeed, hg, hfk] at h
      subst h
      refine ⟨hwf.1, hwf.2.1, hwf.2.2.1, hwf.2.2.2.1, ?_, hwf.2.2.2.2.2⟩
      exact tableWF_map (fun n : Need => n.id) _
        (fun a => by by_cases hcond : a.id = i <;> simp [hcond]) db.needs _ hwf.2.2.2.2.1

theorem editCompleted_preserves_WF (db : DB) (i : Nat) (f : CompletedForm) (db' : DB)
    (hwf : WF db) (h : editCompleted db i f = .ok db') : WF db' := by
  cases hg : getCompleted db i with
  | none => simp [editCompleted, hg] at h
  | some c =>
    cases hpd : parseDate f.completion_date with
    | none => simp [editCompleted, hg, hpd] at h
    | some d =>
      cases hfk : completedFKOk db ⟨c.id, some f.maintenanceplanid, d⟩ with
      | false => simp [editCompleted, hg, hpd, hfk] at h
      | true =>
        simp [editCompleted, hg, hpd, hfk] at h
        subst h
        refine ⟨hwf.1, hwf.2.1, hwf.2.2.1, hwf.2.2.2.1, hwf.2.2.2.2.1, ?_⟩
        exact tableWF_map (fun c : CompletedWork => c.id) _
          (fun a => by by_cases hcond : a.id = i <;> simp [hcond]) db.completed _ hwf.2.2.2.2.2

end KursachBD
